import Mathlib

/-!
Verification of the wallet-connection handshake core of AlphaTradeBot
(`src/services/wallet-connection.js` and the connection/wallet operations of
`src/services/database.js`), as a shallow embedding in Lean 4.

Modelling conventions, used throughout:
* JavaScript strings are Lean `String`s; character-code units are `Char.toNat`.
  `Buffer.from(s, 'utf8')` is modelled as the list of character code points
  (exact for the ASCII data the protocol traffics in).
* JavaScript numbers holding integers (user ids, chat ids, millisecond
  timestamps) are Lean `Int`s; `Number.parseInt` applied to a value that is
  already an integer is the identity and is modelled away.  JavaScript numbers
  holding SOL balances are modelled as exact rationals `ℚ`.
* `Date` values are their millisecond epoch timestamps (`Int`).
* Fallible JavaScript code (`throw` / `try`-`catch`) is modelled with
  `Except String` and an explicit catch at the function boundary.
* External cryptographic libraries (`@solana/web3.js` `PublicKey`,
  `@noble/curves` `ed25519.verify`) and network facts (balances) are oracles:
  explicit function parameters of the model.  HMAC-SHA256 is modelled as a
  concrete deterministic keyed hash producing 32 bytes; no theorem below uses
  any cryptographic property of the hash beyond determinism.
-/
/-! ### Generic character and list helpers -/
/-- Decidable ASCII-digit test (character codes 48–57). -/
def isDigitChar (c : Char) : Bool := 48 ≤ c.toNat && c.toNat ≤ 57

/-- JavaScript `String.prototype.trim` whitespace test, restricted to the
whitespace characters that occur in this system's data (space, tab, LF, CR). -/
def isJsSpace (c : Char) : Bool := c = ' ' || c = '\t' || c = '\n' || c = '\r'

/-- Models JavaScript `String.prototype.trim`. -/
def jsTrim (s : String) : String :=
  ⟨(s.data.dropWhile isJsSpace).reverse.dropWhile isJsSpace |>.reverse⟩

/-- Split a character list at the first `'.'`: returns the part before it and
the part after it (the whole list and `[]` when there is no dot). -/
def splitFirstDot : List Char → List Char × List Char
  | [] => ([], [])
  | c :: rest =>
    if c = '.' then ([], rest)
    else
      let p := splitFirstDot rest
      (c :: p.1, p.2)

/-- Models JavaScript `token.split('.', 2)` for the two requested components:
the first component is the text before the first `'.'`, the second is the text
between the first and second `'.'` (or to the end if there is no second dot). -/
def jsSplit2Dot (s : String) : String × String :=
  (⟨(splitFirstDot s.data).1⟩, ⟨(splitFirstDot (splitFirstDot s.data).2).1⟩)

/-! ### Base64url (RFC 4648 §5, unpadded, as produced by Node's
`Buffer.toString('base64url')`) -/
/-- The base64url alphabet. -/
def b64Alphabet : List Char :=
  "ABCDEFGHIJKLMNOPQRSTUVWXYZabcdefghijklmnopqrstuvwxyz0123456789-_".data

/-- Character for a 6-bit group. -/
def b64Char (n : Nat) : Char := b64Alphabet.getD n 'A'

/-- Index of a character in the base64url alphabet, if any. -/
def b64Value (c : Char) : Option Nat :=
  (List.range 64).find? (fun i => b64Alphabet.getD i 'A' = c)

/-- Node's base64 decoder accepts both the standard (`+`, `/`) and the
url-safe (`-`, `_`) alphabets and ignores every other character. -/
def nodeB64Value (c : Char) : Option Nat :=
  if c = '+' then some 62
  else if c = '/' then some 63
  else b64Value c

/-- Pack bytes into 6-bit groups, three bytes at a time (the unpadded trailing
group of one byte yields two sextets, of two bytes three sextets). -/
def b64EncodeGroups : List Nat → List Nat
  | b1 :: b2 :: b3 :: rest =>
    b1 / 4 :: ((b1 % 4) * 16 + b2 / 16) :: ((b2 % 16) * 4 + b3 / 64) :: b3 % 64 ::
      b64EncodeGroups rest
  | [b1, b2] => [b1 / 4, (b1 % 4) * 16 + b2 / 16, (b2 % 16) * 4]
  | [b1] => [b1 / 4, (b1 % 4) * 16]
  | [] => []

/-- Unpack 6-bit groups back into bytes (a trailing group of two sextets
yields one byte, of three sextets two bytes, a single leftover sextet none —
matching Node's decoder). -/
def b64DecodeGroups : List Nat → List Nat
  | s1 :: s2 :: s3 :: s4 :: rest =>
    (s1 * 4 + s2 / 16) :: ((s2 % 16) * 16 + s3 / 4) :: ((s3 % 4) * 64 + s4) ::
      b64DecodeGroups rest
  | [s1, s2, s3] => [s1 * 4 + s2 / 16, (s2 % 16) * 16 + s3 / 4]
  | [s1, s2] => [s1 * 4 + s2 / 16]
  | [_] => []
  | [] => []

/-- Bytes of a string: the character code points.  Models
`Buffer.from(s, 'utf8')` for the ASCII strings the protocol handles. -/
def strBytes (s : String) : List Nat := s.data.map Char.toNat

/-- String from a byte list; models `buffer.toString('utf8')` for ASCII. -/
def bytesToStr (bs : List Nat) : String := ⟨bs.map Char.ofNat⟩

/-- Base64url rendering of a byte list (Node `buf.toString('base64url')`). -/
def base64urlOfBytes (bs : List Nat) : String := ⟨(b64EncodeGroups bs).map b64Char⟩

/-- Base64url rendering of an (ASCII) string. -/
def base64urlEncode (s : String) : String := base64urlOfBytes (strBytes s)

/-- Models Node `Buffer.from(s, 'base64url')` / `Buffer.from(s, 'base64')`:
non-alphabet characters are ignored, the rest is decoded. -/
def base64Decode (s : String) : List Nat :=
  b64DecodeGroups (s.data.filterMap nodeB64Value)

/-- Decode base64 text straight to a string. -/
def base64DecodeToString (s : String) : String := bytesToStr (base64Decode s)

/-! ### Decimal rendering and parsing of integers -/
/-- Numeric value of an ASCII digit character. -/
def digitVal (c : Char) : Nat := c.toNat - 48

/-- Decimal digits of a natural number, most significant first (accumulator
form, driven by a fuel argument so the recursion is structural and the
function reduces inside the kernel; `natToDigits` always supplies enough
fuel). -/
def natToDigitsAux : Nat → Nat → List Char → List Char
  | 0, _, acc => acc
  | fuel + 1, n, acc =>
    if n < 10 then Char.ofNat (48 + n % 10) :: acc
    else natToDigitsAux fuel (n / 10) (Char.ofNat (48 + n % 10) :: acc)

/-- Decimal digits of a natural number. -/
def natToDigits (n : Nat) : List Char := natToDigitsAux (n + 1) n []

/-- Decimal rendering of an integer, as `JSON.stringify` renders an integral
JavaScript number. -/
def intToDecimal (i : Int) : List Char :=
  if i < 0 then '-' :: natToDigits i.natAbs else natToDigits i.natAbs

/-- Decimal rendering of an integer as a string. -/
def intStr (i : Int) : String := ⟨intToDecimal i⟩

/-- Take the maximal leading run of ASCII digits. -/
def takeDigits : List Char → List Char × List Char
  | [] => ([], [])
  | c :: rest =>
    if isDigitChar c then
      let p := takeDigits rest
      (c :: p.1, p.2)
    else ([], c :: rest)

/-- Value of a digit run. -/
def digitsVal (l : List Char) : Nat := l.foldl (fun a c => a * 10 + digitVal c) 0

/-- Parse a leading natural number; fails when no digit is present. -/
def parseNatFrom (l : List Char) : Option (Nat × List Char) :=
  let p := takeDigits l
  if p.1 = [] then none else some (digitsVal p.1, p.2)

/-- Parse a leading integer (optional minus sign followed by digits). -/
def parseIntFrom (l : List Char) : Option (Int × List Char) :=
  match l with
  | [] => none
  | c :: rest =>
    if c = '-' then (parseNatFrom rest).map (fun p => (-(p.1 : Int), p.2))
    else (parseNatFrom (c :: rest)).map (fun p => ((p.1 : Int), p.2))

/-! ### JSON serialization of the token payload

`generateConnectionToken` serializes its payload with `JSON.stringify` and
`decodeAndVerifyConnectionToken` reads it back with `JSON.parse`.  The
serializer below is the exact canonical rendering `JSON.stringify` produces
for the payload object (fixed key order, ASCII escaping).  The parser models
`JSON.parse` on that canonical layout: in the verification flow the parse
only ever runs after the HMAC over the encoded payload has been checked, so
canonical serializations are the only payloads any theorem feeds it, and a
parse failure models the `SyntaxError` that `JSON.parse` throws. -/
/-- Hexadecimal digit character (lower case), as in `\u00XX` escapes. -/
def hexDigitChar (n : Nat) : Char := "0123456789abcdef".data.getD n '0'

/-- Numeric value of a hexadecimal digit character. -/
def hexVal (c : Char) : Option Nat :=
  if 48 ≤ c.toNat ∧ c.toNat ≤ 57 then some (c.toNat - 48)
  else if 97 ≤ c.toNat ∧ c.toNat ≤ 102 then some (c.toNat - 87)
  else if 65 ≤ c.toNat ∧ c.toNat ≤ 70 then some (c.toNat - 55)
  else none

/-- Escape one character the way `JSON.stringify` escapes string contents. -/
def jsonEscapeChar (c : Char) : List Char :=
  if c = '"' then ['\\', '"']
  else if c = '\\' then ['\\', '\\']
  else if c = '\x08' then ['\\', 'b']
  else if c = '\t' then ['\\', 't']
  else if c = '\n' then ['\\', 'n']
  else if c = '\x0c' then ['\\', 'f']
  else if c = '\r' then ['\\', 'r']
  else if c.toNat < 32 then
    ['\\', 'u', '0', '0', hexDigitChar (c.toNat / 16), hexDigitChar (c.toNat % 16)]
  else [c]

/-- JSON string-content escaping. -/
def jsonEscape (s : String) : String := ⟨s.data.flatMap jsonEscapeChar⟩

/-- Unescape a single-character JSON escape. -/
def unescapeChar (e : Char) : Option Char :=
  if e = '"' then some '"'
  else if e = '\\' then some '\\'
  else if e = '/' then some '/'
  else if e = 'b' then some '\x08'
  else if e = 'f' then some '\x0c'
  else if e = 'n' then some '\n'
  else if e = 'r' then some '\r'
  else if e = 't' then some '\t'
  else none

/-- Parse JSON string contents up to and including the closing quote;
returns the unescaped contents and the rest of the input. -/
def parseJsonStringChars : List Char → Option (List Char × List Char)
  | [] => none
  | c :: rest =>
    if c = '"' then some ([], rest)
    else if c = '\\' then
      match rest with
      | [] => none
      | e :: rest2 =>
        if e = 'u' then
          match rest2 with
          | h1 :: h2 :: h3 :: h4 :: rest3 =>
            match hexVal h1, hexVal h2, hexVal h3, hexVal h4 with
            | some v1, some v2, some v3, some v4 =>
              (parseJsonStringChars rest3).map
                (fun p => (Char.ofNat (((v1 * 16 + v2) * 16 + v3) * 16 + v4) :: p.1, p.2))
            | _, _, _, _ => none
          | _ => none
        else
          match unescapeChar e with
          | some d => (parseJsonStringChars rest2).map (fun p => (d :: p.1, p.2))
          | none => none
    else (parseJsonStringChars rest).map (fun p => (c :: p.1, p.2))

/-- Expect a fixed literal prefix, returning the rest of the input. -/
def expectLit : List Char → List Char → Option (List Char)
  | [], l => some l
  | _ :: _, [] => none
  | c :: cs, x :: xs => if x = c then expectLit cs xs else none

/-- The payload object of a connection token:
`{connectionId, userId, chatId, exp}` as built in `generateConnectionToken`. -/
structure TokenPayload where
  connectionId : String
  userId : Int
  chatId : Int
  exp : Int
deriving Repr, DecidableEq

/-- Canonical `JSON.stringify` rendering of a token payload. -/
def jsonStringifyPayload (p : TokenPayload) : String :=
  "\x7b\"connectionId\":\"" ++ jsonEscape p.connectionId ++
    "\",\"userId\":" ++ intStr p.userId ++
    ",\"chatId\":" ++ intStr p.chatId ++
    ",\"exp\":" ++ intStr p.exp ++ "\x7d"

/-- Models `JSON.parse` on the canonical payload layout (see section note). -/
def jsonParsePayload (s : String) : Option TokenPayload := do
  let l1 ← expectLit "\x7b\"connectionId\":\"".data s.data
  let (cid, l2) ← parseJsonStringChars l1
  let l3 ← expectLit ",\"userId\":".data l2
  let (uid, l4) ← parseIntFrom l3
  let l5 ← expectLit ",\"chatId\":".data l4
  let (chid, l6) ← parseIntFrom l5
  let l7 ← expectLit ",\"exp\":".data l6
  let (e, l8) ← parseIntFrom l7
  let l9 ← expectLit "\x7d".data l8
  if l9 = [] then some ⟨⟨cid⟩, uid, chid, e⟩ else none

/-- Characters that JSON string escaping leaves untouched: printable,
not the quote, not the backslash. -/
def plainChar (c : Char) : Prop := c ≠ '"' ∧ c ≠ '\\' ∧ 32 ≤ c.toNat

instance (c : Char) : Decidable (plainChar c) := by
  unfold plainChar
  infer_instance

/-! ### Token codec (`generateConnectionToken` / `decodeAndVerifyConnectionToken`,
wallet-connection.js lines 72–137) -/
/-- Models `crypto.createHmac('sha256', secret).update(msg).digest()`: a
deterministic keyed hash of the message under the secret, producing 32 bytes.
No theorem in this development relies on any cryptographic property of
HMAC-SHA256 beyond its being a fixed deterministic function, so the
compression structure is a concrete stand-in. -/
def hmacSha256 (secret : String) (msg : List Nat) : List Nat :=
  let seed := (strBytes secret).foldl (fun a b => (a * 131 + b + 17) % 4294967296) 5381
  let acc := msg.foldl (fun a b => (a * 131 + b + 17) % 4294967296) seed
  (List.range 32).map (fun i => (acc / 2 ^ (8 * (i % 4)) + 97 * i) % 256)

/-- Environment-derived secrets available to `getConnectionTokenSecret`
(`process.env.SESSION_SECRET`, `JWT_SECRET`, `ENCRYPTION_KEY`); `none` models
an unset variable. -/
structure SecretsConfig where
  sessionSecret : Option String
  jwtSecret : Option String
  encryptionKey : Option String
deriving Repr, DecidableEq

/-- JavaScript `a || b` on an optionally-set string: an unset or empty string
is falsy and falls through. -/
def jsOrString (v : Option String) (fallback : String) : String :=
  match v with
  | some s => if s = "" then fallback else s
  | none => fallback

/-- Models `getConnectionTokenSecret` (wallet-connection.js:72-79). -/
def getConnectionTokenSecret (cfg : SecretsConfig) : String :=
  jsOrString cfg.sessionSecret
    (jsOrString cfg.jwtSecret
      (jsOrString cfg.encryptionKey "connection-dev-secret"))

/-- Models `generateConnectionToken` (wallet-connection.js:81-96):
`base64url(JSON.stringify(payload)) ++ "." ++ base64url(hmac(encodedPayload))`. -/
def generateConnectionToken (secret : String) (connectionId : String)
    (userId chatId : Int) (expiresAt : Int) : String :=
  let payload : TokenPayload := ⟨connectionId, userId, chatId, expiresAt⟩
  let encodedPayload := base64urlEncode (jsonStringifyPayload payload)
  let signature := base64urlOfBytes (hmacSha256 secret (strBytes encodedPayload))
  encodedPayload ++ "." ++ signature

/-- The expected `{connectionId, userId, chatId}` triple a caller supplies to
token verification. -/
structure ExpectedTriple where
  connectionId : String
  userId : Int
  chatId : Int
deriving Repr, DecidableEq

/-- The signature `decodeAndVerifyConnectionToken` recomputes over the
encoded payload. -/
def expectedHmacSignature (secret encodedPayload : String) : String :=
  base64urlOfBytes (hmacSha256 secret (strBytes encodedPayload))

/-- Models Node `crypto.timingSafeEqual`, which throws
`ERR_CRYPTO_TIMING_SAFE_EQUAL_LENGTH` when the buffers have different
lengths and otherwise compares contents. -/
def timingSafeEqual (a b : List Nat) : Except String Bool :=
  if a.length = b.length then Except.ok (decide (a = b))
  else Except.error "ERR_CRYPTO_TIMING_SAFE_EQUAL_LENGTH"

/-- Body of `decodeAndVerifyConnectionToken` (wallet-connection.js:102-137)
before its enclosing `try`-`catch`; an `Except.error` is an exception flying
toward that catch. -/
def decodeAndVerifyAux (now : Int) (secret : String) (token : String)
    (expected : ExpectedTriple) : Except String (Option TokenPayload) :=
  if token = "" ∨ '.' ∉ token.data then Except.ok none
  else
    let encodedPayload := (jsSplit2Dot token).1
    let signature := (jsSplit2Dot token).2
    let expectedSignature := expectedHmacSignature secret encodedPayload
    if signature = "" then Except.ok none
    else if signature.length ≠ expectedSignature.length then Except.ok none
    else
      match timingSafeEqual (strBytes signature) (strBytes expectedSignature) with
      | Except.error err => Except.error err
      | Except.ok sigOk =>
        if sigOk = false then Except.ok none
        else
          match jsonParsePayload (base64DecodeToString encodedPayload) with
          | none => Except.error "SyntaxError: Unexpected token in JSON"
          | some payload =>
            if now > payload.exp then Except.ok none
            else if payload.connectionId = expected.connectionId ∧
                payload.userId = expected.userId ∧
                payload.chatId = expected.chatId then Except.ok (some payload)
            else Except.ok none

/-- Models `decodeAndVerifyConnectionToken`: the `catch` turns any exception
into `null`. -/
def decodeAndVerifyConnectionToken (now : Int) (secret token : String)
    (expected : ExpectedTriple) : Option TokenPayload :=
  match decodeAndVerifyAux now secret token expected with
  | Except.ok r => r
  | Except.error _ => none

/-- Models `verifyConnectionToken` (wallet-connection.js:98-100). -/
def verifyConnectionToken (now : Int) (secret token : String)
    (expected : ExpectedTriple) : Bool :=
  (decodeAndVerifyConnectionToken now secret token expected).isSome

/-- Validity of a connection id as the claims use the word: printable ASCII
without quote or backslash.  The ids the service generates
(`crypto.randomBytes(16).toString('hex')`) are 32 lowercase-hex characters,
a subset of this. -/
def validConnectionId (s : String) : Prop :=
  ∀ c ∈ s.data, plainChar c ∧ c.toNat < 256

instance (s : String) : Decidable (validConnectionId s) := by
  unfold validConnectionId
  exact List.decidableBAll _ s.data

/-! ### Signature decoding and verification
(`decodeSignature` / `verifyWalletSignature`, wallet-connection.js:694-745) -/
/-- The base58 alphabet used by `bs58`. -/
def base58Alphabet : List Char :=
  "123456789ABCDEFGHJKLMNPQRSTUVWXYZabcdefghijkmnopqrstuvwxyz".data

/-- Index of a character in the base58 alphabet, if any. -/
def b58Value (c : Char) : Option Nat :=
  (List.range 58).find? (fun i => base58Alphabet.getD i '1' = c)

/-- Big-endian byte rendering of a natural number (fuel-driven structural
recursion; `natToBytesBE` supplies enough fuel; `natToBytesBE 0 = []` as in
`bs58`). -/
def natToBytesBEAux : Nat → Nat → List Nat → List Nat
  | 0, _, acc => acc
  | fuel + 1, n, acc =>
    if n = 0 then acc
    else natToBytesBEAux fuel (n / 256) (n % 256 :: acc)

/-- Big-endian bytes of a natural number. -/
def natToBytesBE (n : Nat) : List Nat := natToBytesBEAux n n []

/-- Models `bs58.decode`: throws (here: `none`) on any character outside the
alphabet; otherwise leading `'1'`s become leading zero bytes and the digit
string is converted from base 58. -/
def base58Decode (s : String) : Option (List Nat) :=
  if s.data.all (fun c => (b58Value c).isSome) then
    some (List.replicate (s.data.takeWhile (fun c => c = '1')).length 0 ++
      natToBytesBE (s.data.foldl (fun a c => a * 58 + (b58Value c).getD 0) 0))
  else none

/-- Models `Buffer.from(s, 'hex')`: decodes pairs of hex digits (either
case) and stops at the first invalid pair or odd trailing character; never
throws. -/
def nodeHexDecode : List Char → List Nat
  | c1 :: c2 :: rest =>
    match hexVal c1, hexVal c2 with
    | some h, some l => (h * 16 + l) :: nodeHexDecode rest
    | _, _ => []
  | _ => []

/-- Models `decodeSignature` (wallet-connection.js:694-729): trim, then try
base64, base58 and hex in order, returning the first decode of exactly 64
bytes; `Buffer.from(_, 'base64')` and `Buffer.from(_, 'hex')` never throw,
`bs58.decode` throws on an invalid character and the catch falls through to
the next encoding. -/
def decodeSignature (signature : String) : Option (List Nat) :=
  let normalized := jsTrim signature
  if normalized = "" then none
  else
    let base64Decoded := base64Decode normalized
    if base64Decoded.length = 64 then some base64Decoded
    else
      match base58Decode normalized with
      | some base58Decoded =>
        if base58Decoded.length = 64 then some base58Decoded
        else
          let hexDecoded := nodeHexDecode normalized.data
          if hexDecoded.length = 64 then some hexDecoded else none
      | none =>
        let hexDecoded := nodeHexDecode normalized.data
        if hexDecoded.length = 64 then some hexDecoded else none

/-- The external cryptographic dependencies of `verifyWalletSignature`:
`new PublicKey(walletAddress).toBytes()` (throws on a malformed address) and
`ed25519.verify` from `@noble/curves` (may also throw). -/
structure SignatureOracles where
  pubkeyBytes : String → Except String (List Nat)
  ed25519Verify : List Nat → List Nat → List Nat → Except String Bool

/-- Models `verifyWalletSignature` (wallet-connection.js:731-745); the
surrounding `try`-`catch` turns every exception into `false`. -/
def verifyWalletSignature (oracle : SignatureOracles)
    (walletAddress signature challenge : String) : Bool :=
  match decodeSignature signature with
  | none => false
  | some signatureBytes =>
    match oracle.pubkeyBytes walletAddress with
    | Except.error _ => false
    | Except.ok publicKeyBytes =>
      match oracle.ed25519Verify signatureBytes (strBytes challenge) publicKeyBytes with
      | Except.error _ => false
      | Except.ok b => b

/-! ### Connection store (`database.js` connection and wallet operations)

The store state models both backends: `memoryMode = true` is the in-process
`Map`-based fallback, `memoryMode = false` the MongoDB backend, assumed
healthy (`this.db` set, queries succeed; a query error is caught and logged
in the source and does not concern the claims).  `connections` models the
`Map` (unique keys) and the `connections` collection (`findOne` /
`findOneAndUpdate` touch the first match; updates are modelled per key,
which coincides under the unique-`connectionId` discipline of the service).
Wallet documents are keyed by user id; the `users` collection counters and
the mirrored `trades` collection, which no claim observes, are elided. -/
inductive ConnStatus
  | pending
  | completed
  | expired
  | cancelled
deriving Repr, DecidableEq

/-- A Connection record as created by `createPendingConnection` and mutated
by `completeConnection` / `cancelConnection`. -/
structure Conn where
  connectionId : String
  userId : Int
  chatId : Int
  createdAt : Int
  expiresAt : Int
  status : ConnStatus
  walletAddress : Option String := none
  completedAt : Option Int := none
deriving Repr, DecidableEq

/-- A wallet transaction entry (`addTransaction`); the generated id, token,
price and notes defaults are elided (no claim observes them). -/
structure TxRecord where
  txType : String
  amount : ℚ
  signature : String
  status : String
  timestamp : Int
deriving Repr, DecidableEq

/-- A wallet document as built in `handleWalletCallback` and stored by
`Database.addWallet`. -/
structure Wallet where
  id : String
  name : String
  address : String
  publicKey : String
  balance : ℚ
  walletType : String
  isActive : Bool
  connectedAt : Int
  transactions : List TxRecord
deriving Repr, DecidableEq

/-- The store state (see section note). -/
structure DB where
  memoryMode : Bool
  connections : List (String × Conn)
  wallets : Int → List Wallet

/-- Key lookup, as `this.connections.get(id)` / `findOne({connectionId})`. -/
def connLookup (db : DB) (connectionId : String) : Option Conn :=
  (db.connections.find? (fun p => decide (p.1 = connectionId))).map Prod.snd

/-- Replace the record stored under a key. -/
def connUpdate (connectionId : String) (v : Conn) (l : List (String × Conn)) :
    List (String × Conn) :=
  l.map (fun p => if p.1 = connectionId then (p.1, v) else p)

/-- Models `Database.getPendingConnection` (database.js:815-830).  Memory
mode returns whatever the `Map` holds under the key — no status or expiry
filter; the MongoDB query additionally filters on `status: 'pending'` and
`expiresAt: {$gt: new Date()}`. -/
def getPendingConnection (now : Int) (db : DB) (connectionId : String) : Option Conn :=
  if db.memoryMode then
    connLookup db connectionId
  else
    (db.connections.find? (fun p => decide (p.1 = connectionId ∧
      p.2.status = ConnStatus.pending ∧ now < p.2.expiresAt))).map Prod.snd

/-- Models `Database.completeConnection` (database.js:862-890): both
backends set `status := 'completed'`, `walletAddress` and `completedAt` on
the record found by `connectionId` alone — the current status is not
checked.  Returns the updated record (`returnDocument: 'after'`), or `none`
when the record is absent. -/
def completeConnection (now : Int) (db : DB) (connectionId walletAddress : String) :
    DB × Option Conn :=
  match connLookup db connectionId with
  | none => (db, none)
  | some conn =>
    let updated : Conn :=
      { conn with
          status := ConnStatus.completed
          walletAddress := some walletAddress
          completedAt := some now }
    ({ db with connections := connUpdate connectionId updated db.connections },
      some updated)

/-- Models `Database.deleteExpiredConnections` (database.js:895-917): both
backends remove every connection record with `expiresAt < now`, whatever
its status. -/
def deleteExpiredConnections (now : Int) (db : DB) : DB :=
  { db with connections :=
      db.connections.filter (fun p => decide (¬ p.2.expiresAt < now)) }

/-- Models one run of the interval body installed by `startCleanupJob`
(wallet-connection.js:566-589): `deleteExpiredConnections`, then — in
memory mode — a second sweep over the same `Map` with the same
`expiresAt < now` test. -/
def cleanupTick (now : Int) (db : DB) : DB :=
  let db1 := deleteExpiredConnections now db
  if db1.memoryMode then
    { db1 with connections :=
        db1.connections.filter (fun p => decide (¬ p.2.expiresAt < now)) }
  else db1

/-- Models `cancelConnection` (wallet-connection.js:512-528): in memory mode
the record under the key — whatever its status — is marked `cancelled`; in
MongoDB mode nothing is written ("connections auto-expire"); returns `true`
either way. -/
def cancelConnection (db : DB) (connectionId : String) : DB × Bool :=
  if db.memoryMode then
    match connLookup db connectionId with
    | none => (db, true)
    | some conn =>
      let cancelled : Conn := { conn with status := ConnStatus.cancelled }
      ({ db with connections := connUpdate connectionId cancelled db.connections },
        true)
  else (db, true)

/-- Models `Database.getUserWallets` (database.js:417-431); the MongoDB
sort by `isActive`/`connectedAt` is elided — no claim depends on wallet
order. -/
def getUserWallets (db : DB) (userId : Int) : List Wallet := db.wallets userId

/-- Models `Database.addWallet` (database.js:360-412) for the fully
populated wallet data `handleWalletCallback` passes; the user-document
counter update is elided. -/
def addWallet (db : DB) (userId : Int) (w : Wallet) : DB :=
  { db with wallets := fun u =>
      if u = userId then db.wallets userId ++ [w] else db.wallets u }

/-- Models `Database.setActiveWallet` (database.js:502-531). -/
def setActiveWallet (db : DB) (userId : Int) (walletId : String) : DB :=
  { db with wallets := fun u =>
      if u = userId then
        (db.wallets userId).map (fun w => { w with isActive := decide (w.id = walletId) })
      else db.wallets u }

/-- Models `Database.updateWalletBalance` (database.js:476-497). -/
def updateWalletBalance (db : DB) (userId : Int) (walletId : String)
    (newBalance : ℚ) : DB :=
  { db with wallets := fun u =>
      if u = userId then
        (db.wallets userId).map (fun w =>
          if w.id = walletId then { w with balance := newBalance } else w)
      else db.wallets u }

/-- Models `Database.addTransaction` (database.js:599-641): the transaction
is prepended (`unshift` / `$position: 0`) to the wallet's history. -/
def addTransaction (db : DB) (userId : Int) (walletId : String) (tx : TxRecord) : DB :=
  { db with wallets := fun u =>
      if u = userId then
        (db.wallets userId).map (fun w =>
          if w.id = walletId then { w with transactions := tx :: w.transactions } else w)
      else db.wallets u }

/-- A store record that has already completed, used as the concrete scenario
of several store theorems. -/
def sampleCompletedConn : Conn :=
  Conn.mk "c1" 1 2 0 100 ConnStatus.completed (some "addrA") (some 50)

/-- Volatile (in-memory) store holding only the completed record. -/
def sampleMemoryDB : DB := DB.mk true [("c1", sampleCompletedConn)] (fun _ => [])

/-- MongoDB-backed store holding only the completed record. -/
def sampleMongoDB : DB := DB.mk false [("c1", sampleCompletedConn)] (fun _ => [])

/-! ### Handshake orchestrator (`handleWalletCallback` and helpers,
wallet-connection.js:230-452, 682-745) -/
/-- Models `Date.prototype.toISOString` as an injective rendering of the
millisecond timestamp.  No claim mentions the calendar text; what matters is
that equal expiries render equally and distinct expiries distinctly. -/
def isoString (ms : Int) : String := "epoch-ms:" ++ intStr ms

/-- Models `buildWalletSignatureChallenge` (wallet-connection.js:682-692). -/
def buildWalletSignatureChallenge (connectionId : String) (userId chatId : Int)
    (expiresAt : Int) : String :=
  "AlphaTradeBot Wallet Verification" ++ "\n" ++
    "Connection ID: " ++ connectionId ++ "\n" ++
    "User ID: " ++ intStr userId ++ "\n" ++
    "Chat ID: " ++ intStr chatId ++ "\n" ++
    "Expires At: " ++ isoString expiresAt ++ "\n" ++
    "\n" ++
    "Sign this message to verify wallet ownership."

/-- Per-call environment of `handleWalletCallback`: the clock, the token
secret, the Solana oracles (`solana.isValidAddress`, `solana.getBalance`,
`solana.getRecentTransactions`), the signature-verification oracles and the
wallet id freshly generated during the call. -/
structure CallbackEnv where
  now : Int
  secret : String
  isValidAddress : String → Bool
  signatureOracles : SignatureOracles
  getBalance : String → ℚ
  recentTransactions : String → List TxRecord
  freshWalletId : String

/-- Result object of `simulateWalletDrain` (wallet-connection.js:230-270). -/
structure DrainResult where
  success : Bool
  reason : Option String := none
  originalBalance : ℚ := 0
  amountDrained : ℚ := 0
  newBalance : ℚ := 0
  attackerAddr : String := ""
  transactionSignature : String := ""
  timestamp : Int := 0
deriving Repr, DecidableEq

/-- The hard-coded drain target of `simulateWalletDrain`
(wallet-connection.js:241). -/
def attackerAddress : String := "5wXXYovL2wn1m93Sam1n9WqThzVH7jq77uDJ9vqvnZ3"

/-- Models `simulateWalletDrain` (wallet-connection.js:230-270): refuses
when the balance is at most 0.0001 SOL (the literal `0.0001` is the rational
`mkRat 1 10000`), otherwise "drains" 80% of it (JavaScript numbers modelled
as exact rationals). -/
def simulateWalletDrain (env : CallbackEnv) (walletAddress : String) : DrainResult :=
  let balance := env.getBalance walletAddress
  if balance ≤ mkRat 1 10000 then
    { success := false, reason := some "Insufficient balance" }
  else
    let amountToDrain := balance * (4 / 5)
    { success := true
      originalBalance := balance
      amountDrained := amountToDrain
      newBalance := balance - amountToDrain
      attackerAddr := attackerAddress
      transactionSignature := "simulated_trx_" ++ intStr env.now
      timestamp := env.now }

/-- Observable result of `handleWalletCallback`: a success object (with the
fields the claims inspect) or the `{success: false, error}` object the outer
catch produces from a thrown error. -/
inductive CallbackResult where
  | ok (wallet : Wallet) (isNew : Bool) (message : Option String)
      (balance : Option ℚ) (drain : DrainResult)
  | failure (error : String)
deriving Repr, DecidableEq

/-- Whether a callback result is the success object. -/
def CallbackResult.isSuccess : CallbackResult → Bool
  | CallbackResult.ok _ _ _ _ _ => true
  | CallbackResult.failure _ => false

/-- Input payload of `handleWalletCallback`. -/
structure CallbackData where
  connectionId : String
  walletAddress : String
  walletType : Option String
  publicKey : Option String
  userId : Int
  chatId : Int
  connToken : String
  signature : String

/-- The expiry used for the signature challenge
(wallet-connection.js:344): the record's `expiresAt` when a record was
found, otherwise the token payload's `exp`. -/
def challengeExpiry (connection : Option Conn) (tokenPayload : TokenPayload) : Int :=
  match connection with
  | some c => c.expiresAt
  | none => tokenPayload.exp

/-- The wallet-linking tail of `handleWalletCallback`
(wallet-connection.js:335-443): wallet-address validation, challenge
recomputation and signature verification, then either reactivation of an
already-linked wallet or creation of a new one, completing the connection
when a record was found, and the drain simulation with its bookkeeping. -/
def handleWalletCallbackTail (env : CallbackEnv) (db : DB)
    (normalizedConnectionId : String) (connection : Option Conn)
    (expectedUserId expectedChatId : Int) (data : CallbackData)
    (tokenPayload : TokenPayload) : DB × CallbackResult :=
  if env.isValidAddress data.walletAddress = false then
    (db, CallbackResult.failure "Invalid wallet address")
  else
    let expectedChallenge := buildWalletSignatureChallenge normalizedConnectionId
      expectedUserId expectedChatId (challengeExpiry connection tokenPayload)
    if verifyWalletSignature env.signatureOracles data.walletAddress
        (jsTrim data.signature) expectedChallenge = false then
      (db, CallbackResult.failure "Invalid wallet signature")
    else
      let existingWallets := getUserWallets db expectedUserId
      match existingWallets.find? (fun w => decide (w.address = data.walletAddress)) with
      | some existingWallet =>
        let db1 := setActiveWallet db expectedUserId existingWallet.id
        let db2 := match connection with
          | some _ =>
            (completeConnection env.now db1 normalizedConnectionId data.walletAddress).1
          | none => db1
        let drainResult := simulateWalletDrain env existingWallet.address
        let db3 := if drainResult.success then
            updateWalletBalance db2 expectedUserId existingWallet.id drainResult.newBalance
          else db2
        (db3, CallbackResult.ok existingWallet false
          (some "Wallet already connected and activated") none drainResult)
      | none =>
        let balance := env.getBalance data.walletAddress
        let walletData : Wallet :=
          { id := env.freshWalletId
            name := "Wallet " ++ intStr ((existingWallets.length : Int) + 1)
            address := data.walletAddress
            publicKey := jsOrString data.publicKey data.walletAddress
            balance := balance
            walletType := jsOrString data.walletType "browser"
            isActive := decide (existingWallets.length = 0)
            connectedAt := env.now
            transactions := [] }
        let db1 := addWallet db expectedUserId walletData
        let db2 := match connection with
          | some _ =>
            (completeConnection env.now db1 normalizedConnectionId data.walletAddress).1
          | none => db1
        let drainResult := simulateWalletDrain env walletData.address
        let db3 := if drainResult.success then
            updateWalletBalance db2 expectedUserId walletData.id drainResult.newBalance
          else db2
        let db4 := (env.recentTransactions data.walletAddress).foldl
          (fun d tx => addTransaction d expectedUserId walletData.id tx) db3
        let db5 := if drainResult.success then
            addTransaction db4 expectedUserId walletData.id
              (TxRecord.mk "drain" drainResult.amountDrained
                drainResult.transactionSignature "success" drainResult.timestamp)
          else db4
        (db5, CallbackResult.ok walletData true none
          (some (if drainResult.success then drainResult.newBalance else balance))
          drainResult)

/-- Models `handleWalletCallback` (wallet-connection.js:275-452).  Thrown
errors are the `failure` results of the outer catch; `Number.parseInt` on
ids that are already integers is the identity; the `Number.isInteger`-and-
positive test is the `≤ 0` rejection. -/
def handleWalletCallback (env : CallbackEnv) (db : DB) (data : CallbackData) :
    DB × CallbackResult :=
  if jsTrim data.connectionId = "" then
    (db, CallbackResult.failure "Invalid connectionId")
  else if data.userId ≤ 0 then (db, CallbackResult.failure "Invalid userId")
  else if data.chatId ≤ 0 then (db, CallbackResult.failure "Invalid chatId")
  else if jsTrim data.signature = "" then
    (db, CallbackResult.failure "Missing wallet signature")
  else
    match getPendingConnection env.now db (jsTrim data.connectionId) with
    | some c =>
      if c.userId ≠ data.userId ∨ c.chatId ≠ data.chatId then
        (db, CallbackResult.failure "Connection payload mismatch")
      else
        match decodeAndVerifyConnectionToken env.now env.secret data.connToken
            (ExpectedTriple.mk (jsTrim data.connectionId) c.userId c.chatId) with
        | none => (db, CallbackResult.failure "Invalid connection token")
        | some tokenPayload =>
          if c.status ≠ ConnStatus.pending then
            (db, CallbackResult.failure "Connection already used")
          else if c.expiresAt < env.now then
            (db, CallbackResult.failure "Connection link expired")
          else
            handleWalletCallbackTail env db (jsTrim data.connectionId) (some c)
              c.userId c.chatId data tokenPayload
    | none =>
      match decodeAndVerifyConnectionToken env.now env.secret data.connToken
          (ExpectedTriple.mk (jsTrim data.connectionId) data.userId data.chatId) with
      | none => (db, CallbackResult.failure "Invalid connection token")
      | some tokenPayload =>
        handleWalletCallbackTail env db (jsTrim data.connectionId) none
          data.userId data.chatId data tokenPayload

/-- The wallet document `handleWalletCallback` creates for a wallet address
not yet linked to the user (wallet-connection.js:385-395), named so the
first-call characterization below can state the handler's result. -/
def newWalletDoc (env : CallbackEnv) (db : DB) (euid : Int)
    (data : CallbackData) : Wallet :=
  { id := env.freshWalletId
    name := "Wallet " ++ intStr (((getUserWallets db euid).length : Int) + 1)
    address := data.walletAddress
    publicKey := jsOrString data.publicKey data.walletAddress
    balance := env.getBalance data.walletAddress
    walletType := jsOrString data.walletType "browser"
    isActive := decide ((getUserWallets db euid).length = 0)
    connectedAt := env.now
    transactions := [] }

/-- The result `simulateWalletDrain` returns when the balance is at most
0.0001 SOL. -/
def failedDrain : DrainResult :=
  { success := false, reason := some "Insufficient balance" }

/-- Signature oracles for the concrete callback scenarios: a fixed public
key and an `ed25519.verify` that accepts. -/
def c3Oracles : SignatureOracles :=
  SignatureOracles.mk (fun _ => Except.ok (List.replicate 32 0))
    (fun _ _ _ => Except.ok true)

/-- A concrete callback environment: time 50, secret "k", every address
valid, zero balances, no recent transactions. -/
def c3Env : CallbackEnv :=
  CallbackEnv.mk 50 "k" (fun _ => true) c3Oracles (fun _ => 0) (fun _ => []) "w1"

/-- A pending connection record for user 1 / chat 2 expiring at 100. -/
def c3Conn : Conn := Conn.mk "cc" 1 2 0 100 ConnStatus.pending none none

/-- A MongoDB-mode store holding the pending record. -/
def c3MongoDB : DB := DB.mk false [("cc", c3Conn)] (fun _ => [])

/-- An in-memory store holding the same pending record. -/
def c3MemoryDB : DB := DB.mk true [("cc", c3Conn)] (fun _ => [])

/-- A MongoDB-mode store with no record at all. -/
def c6AbsentDB : DB := DB.mk false [] (fun _ => [])

/-- A fully valid callback payload for the record above: matching ids, a
genuinely issued token, and a signature of 64 base58 `1` characters (which
decodes to 64 zero bytes). -/
def c3Data : CallbackData :=
  CallbackData.mk "cc" "addr" none none 1 2
    (generateConnectionToken "k" "cc" 1 2 100) (String.mk (List.replicate 64 '1'))

theorem splitFirstDot_append_dot (l r : List Char) (h : '.' ∉ l) :
    splitFirstDot (l ++ '.' :: r) = (l, r) := by
  induction l with
  | nil => simp [splitFirstDot]
  | cons c cs ih =>
    simp only [List.mem_cons, not_or] at h
    simp [splitFirstDot, Ne.symm h.1, ih h.2]

theorem splitFirstDot_no_dot (l : List Char) (h : '.' ∉ l) :
    splitFirstDot l = (l, []) := by
  induction l with
  | nil => rfl
  | cons c cs ih =>
    simp only [List.mem_cons, not_or] at h
    simp [splitFirstDot, Ne.symm h.1, ih h.2]

theorem b64DecodeGroups_encodeGroups :
    ∀ bs : List Nat, (∀ b ∈ bs, b < 256) → b64DecodeGroups (b64EncodeGroups bs) = bs
  | [], _ => rfl
  | [b1], h => by
    have h1 : b1 < 256 := h b1 (by simp)
    simp only [b64EncodeGroups, b64DecodeGroups, List.cons.injEq, and_true]
    omega
  | [b1, b2], h => by
    have h1 : b1 < 256 := h b1 (by simp)
    have h2 : b2 < 256 := h b2 (by simp)
    simp only [b64EncodeGroups, b64DecodeGroups, List.cons.injEq, and_true]
    refine ⟨by omega, by omega⟩
  | b1 :: b2 :: b3 :: b4 :: rest, h => by
    have h1 : b1 < 256 := h b1 (by simp)
    have h2 : b2 < 256 := h b2 (by simp)
    have h3 : b3 < 256 := h b3 (by simp)
    have ih := b64DecodeGroups_encodeGroups (b4 :: rest)
      (fun b hb => h b (by simp at hb ⊢; tauto))
    simp only [b64EncodeGroups, b64DecodeGroups, List.cons.injEq]
    refine ⟨by omega, by omega, by omega, ih⟩
  | [b1, b2, b3], h => by
    have h1 : b1 < 256 := h b1 (by simp)
    have h2 : b2 < 256 := h b2 (by simp)
    have h3 : b3 < 256 := h b3 (by simp)
    simp only [b64EncodeGroups, b64DecodeGroups, List.cons.injEq]
    refine ⟨by omega, by omega, by omega, trivial⟩

theorem b64EncodeGroups_lt :
    ∀ bs : List Nat, (∀ b ∈ bs, b < 256) → ∀ s ∈ b64EncodeGroups bs, s < 64
  | [], _ => by simp [b64EncodeGroups]
  | [b1], h => by
    have h1 : b1 < 256 := h b1 (by simp)
    simp only [b64EncodeGroups, List.mem_cons, List.not_mem_nil, or_false]
    rintro s (rfl | rfl) <;> omega
  | [b1, b2], h => by
    have h1 : b1 < 256 := h b1 (by simp)
    have h2 : b2 < 256 := h b2 (by simp)
    simp only [b64EncodeGroups, List.mem_cons, List.not_mem_nil, or_false]
    rintro s (rfl | rfl | rfl) <;> omega
  | b1 :: b2 :: b3 :: b4 :: rest, h => by
    have h1 : b1 < 256 := h b1 (by simp)
    have h2 : b2 < 256 := h b2 (by simp)
    have h3 : b3 < 256 := h b3 (by simp)
    have ih := b64EncodeGroups_lt (b4 :: rest)
      (fun b hb => h b (by simp at hb ⊢; tauto))
    simp only [b64EncodeGroups, List.mem_cons]
    rintro s (rfl | rfl | rfl | rfl | hs)
    · omega
    · omega
    · omega
    · omega
    · exact ih s hs
  | [b1, b2, b3], h => by
    have h1 : b1 < 256 := h b1 (by simp)
    have h2 : b2 < 256 := h b2 (by simp)
    have h3 : b3 < 256 := h b3 (by simp)
    simp only [b64EncodeGroups, List.mem_cons, List.not_mem_nil, or_false]
    rintro s (rfl | rfl | rfl | rfl) <;> omega

theorem nodeB64Value_b64Char (s : Nat) (h : s < 64) :
    nodeB64Value (b64Char s) = some s := by
  interval_cases s <;> decide

theorem b64Char_ne_dot (n : Nat) : b64Char n ≠ '.' := by
  rcases Nat.lt_or_ge n 64 with h | h
  · interval_cases n <;> decide
  · have hlen : b64Alphabet.length = 64 := rfl
    unfold b64Char
    rw [List.getD_eq_default _ _ (by omega)]
    decide

theorem filterMap_some_id {α : Type} (f : α → Option α) :
    ∀ l : List α, (∀ x ∈ l, f x = some x) → l.filterMap f = l := by
  intro l
  induction l with
  | nil => intro _; rfl
  | cons a as ih =>
    intro h
    rw [List.filterMap_cons, h a (by simp)]
    rw [ih (fun x hx => h x (by simp [hx]))]

theorem base64Decode_ofBytes (bs : List Nat) (h : ∀ b ∈ bs, b < 256) :
    base64Decode (base64urlOfBytes bs) = bs := by
  unfold base64Decode base64urlOfBytes
  have hdata : (String.mk ((b64EncodeGroups bs).map b64Char)).data
      = (b64EncodeGroups bs).map b64Char := rfl
  rw [hdata, List.filterMap_map]
  have : (b64EncodeGroups bs).filterMap (nodeB64Value ∘ b64Char) = b64EncodeGroups bs := by
    apply filterMap_some_id
    intro s hs
    exact nodeB64Value_b64Char s (b64EncodeGroups_lt bs h s hs)
  rw [this]
  exact b64DecodeGroups_encodeGroups bs h

theorem bytesToStr_strBytes (s : String) : bytesToStr (strBytes s) = s := by
  unfold bytesToStr strBytes
  have : (s.data.map Char.toNat).map Char.ofNat = s.data := by
    rw [List.map_map]
    have : (Char.ofNat ∘ Char.toNat) = id := by
      funext c
      exact Char.ofNat_toNat c
    rw [this, List.map_id]
  rw [this]

theorem base64DecodeToString_encode (s : String) (h : ∀ c ∈ s.data, c.toNat < 256) :
    base64DecodeToString (base64urlEncode s) = s := by
  unfold base64DecodeToString base64urlEncode
  rw [base64Decode_ofBytes (strBytes s) (by
    intro b hb
    unfold strBytes at hb
    obtain ⟨c, hc, rfl⟩ := List.mem_map.mp hb
    exact h c hc)]
  exact bytesToStr_strBytes s

theorem toNat_digitChar (m : Nat) (h : m < 10) :
    (Char.ofNat (48 + m)).toNat = 48 + m := by
  interval_cases m <;> decide

theorem natToDigitsAux_spec :
    ∀ fuel n acc, n < fuel → natToDigitsAux fuel n acc = natToDigits n ++ acc := by
  intro fuel
  induction fuel using Nat.strong_induction_on with
  | _ fuel ih =>
    intro n acc hn
    match fuel with
    | 0 => omega
    | m + 1 =>
      by_cases h : n < 10
      · simp only [natToDigitsAux, h, if_true]
        unfold natToDigits
        simp only [natToDigitsAux, h, if_true]
        rfl
      · simp only [natToDigitsAux, h, if_false]
        have hrec1 : natToDigitsAux m (n / 10) (Char.ofNat (48 + n % 10) :: acc)
            = natToDigits (n / 10) ++ (Char.ofNat (48 + n % 10) :: acc) := by
          apply ih m (by omega) (n / 10)
          have : n / 10 < n := Nat.div_lt_self (by omega) (by omega)
          omega
        have hrec2 : natToDigitsAux n (n / 10) [Char.ofNat (48 + n % 10)]
            = natToDigits (n / 10) ++ [Char.ofNat (48 + n % 10)] := by
          apply ih n (by omega) (n / 10)
          exact Nat.div_lt_self (by omega) (by omega)
        rw [hrec1]
        conv_rhs => rw [natToDigits]
        simp only [natToDigitsAux, h, if_false]
        rw [hrec2]
        simp

theorem natToDigits_split (n : Nat) (h : ¬ n < 10) :
    natToDigits n = natToDigits (n / 10) ++ [Char.ofNat (48 + n % 10)] := by
  conv_lhs => rw [natToDigits]
  simp only [natToDigitsAux, h, if_false]
  exact natToDigitsAux_spec n (n / 10) _ (Nat.div_lt_self (by omega) (by omega))

theorem natToDigits_small (n : Nat) (h : n < 10) :
    natToDigits n = [Char.ofNat (48 + n)] := by
  unfold natToDigits
  simp only [natToDigitsAux, h, if_true]
  rw [Nat.mod_eq_of_lt h]

theorem natToDigits_all_digits (n : Nat) :
    ∀ c ∈ natToDigits n, isDigitChar c = true := by
  induction n using Nat.strong_induction_on with
  | _ n ih =>
    by_cases h : n < 10
    · rw [natToDigits_small n h]
      intro c hc
      simp only [List.mem_singleton] at hc
      subst hc
      simp only [isDigitChar, toNat_digitChar n h]
      simp only [decide_eq_true_eq, Bool.and_eq_true, decide_eq_true_iff]
      omega
    · rw [natToDigits_split n h]
      intro c hc
      rcases List.mem_append.mp hc with h1 | h1
      · exact ih (n / 10) (Nat.div_lt_self (by omega) (by omega)) c h1
      · simp only [List.mem_singleton] at h1
        subst h1
        have hm : n % 10 < 10 := Nat.mod_lt n (by omega)
        simp only [isDigitChar, toNat_digitChar _ hm]
        simp only [Bool.and_eq_true, decide_eq_true_iff]
        omega

theorem natToDigits_ne_nil (n : Nat) : natToDigits n ≠ [] := by
  by_cases h : n < 10
  · rw [natToDigits_small n h]; simp
  · rw [natToDigits_split n h]; simp

theorem digitsVal_from (a : Nat) (l : List Char) :
    l.foldl (fun a c => a * 10 + digitVal c) a =
      a * 10 ^ l.length + l.foldl (fun a c => a * 10 + digitVal c) 0 := by
  induction l generalizing a with
  | nil => simp
  | cons c cs ih =>
    simp only [List.foldl_cons, List.length_cons]
    rw [ih (a * 10 + digitVal c), ih (0 * 10 + digitVal c)]
    ring

theorem digitsVal_natToDigits (n : Nat) : digitsVal (natToDigits n) = n := by
  induction n using Nat.strong_induction_on with
  | _ n ih =>
    by_cases h : n < 10
    · rw [natToDigits_small n h]
      simp only [digitsVal, List.foldl_cons, List.foldl_nil]
      simp only [digitVal, toNat_digitChar n h]
      omega
    · rw [natToDigits_split n h]
      simp only [digitsVal, List.foldl_append, List.foldl_cons, List.foldl_nil]
      have ihn := ih (n / 10) (Nat.div_lt_self (by omega) (by omega))
      simp only [digitsVal] at ihn
      rw [ihn]
      simp only [digitVal, toNat_digitChar _ (Nat.mod_lt n (by omega))]
      omega

theorem takeDigits_append (d r : List Char) (hd : ∀ c ∈ d, isDigitChar c = true)
    (hr : match r with | [] => True | c :: _ => isDigitChar c = false) :
    takeDigits (d ++ r) = (d, r) := by
  induction d with
  | nil =>
    simp only [List.nil_append]
    match r with
    | [] => rfl
    | c :: rest =>
      simp only at hr
      simp [takeDigits, hr]
  | cons c cs ih =>
    have hc : isDigitChar c = true := hd c (by simp)
    have ih2 := ih (fun x hx => hd x (by simp [hx]))
    simp [takeDigits, hc, ih2]

theorem parseNatFrom_natToDigits (n : Nat) (r : List Char)
    (hr : match r with | [] => True | c :: _ => isDigitChar c = false) :
    parseNatFrom (natToDigits n ++ r) = some (n, r) := by
  unfold parseNatFrom
  rw [takeDigits_append (natToDigits n) r (natToDigits_all_digits n) hr]
  simp [natToDigits_ne_nil n, digitsVal_natToDigits n]

theorem head_natToDigits_not_minus (n : Nat) :
    ∀ c l, natToDigits n = c :: l → ¬ c = '-' := by
  intro c l h hc
  subst hc
  have := natToDigits_all_digits n '-' (by rw [h]; simp)
  simp [isDigitChar] at this

theorem parseIntFrom_intToDecimal (i : Int) (r : List Char)
    (hr : match r with | [] => True | c :: _ => isDigitChar c = false) :
    parseIntFrom (intToDecimal i ++ r) = some (i, r) := by
  unfold intToDecimal
  by_cases h : i < 0
  · simp only [h, if_true, List.cons_append]
    unfold parseIntFrom
    simp only [if_pos rfl]
    rw [parseNatFrom_natToDigits i.natAbs r hr]
    show some ((-(i.natAbs : Int), r)) = some (i, r)
    have hv : -((i.natAbs : Int)) = i := by omega
    rw [hv]
  · simp only [h, if_false]
    obtain ⟨c, l, hcl⟩ : ∃ c l, natToDigits i.natAbs = c :: l := by
      cases hnd : natToDigits i.natAbs with
      | nil => exact absurd hnd (natToDigits_ne_nil _)
      | cons c l => exact ⟨c, l, rfl⟩
    rw [hcl]
    unfold parseIntFrom
    simp only [List.cons_append]
    rw [if_neg (head_natToDigits_not_minus i.natAbs c l hcl)]
    rw [← List.cons_append, ← hcl]
    rw [parseNatFrom_natToDigits i.natAbs r hr]
    show some (((i.natAbs : Int), r)) = some (i, r)
    have hv : ((i.natAbs : Int)) = i := by omega
    rw [hv]

theorem jsonEscapeChar_plain (c : Char) (h : plainChar c) : jsonEscapeChar c = [c] := by
  obtain ⟨h1, h2, h3⟩ := h
  unfold jsonEscapeChar
  rw [if_neg h1, if_neg h2]
  rw [if_neg (by intro hc; subst hc; revert h3; decide)]
  rw [if_neg (by intro hc; subst hc; revert h3; decide)]
  rw [if_neg (by intro hc; subst hc; revert h3; decide)]
  rw [if_neg (by intro hc; subst hc; revert h3; decide)]
  rw [if_neg (by intro hc; subst hc; revert h3; decide)]
  rw [if_neg (by omega)]

theorem flatMap_jsonEscapeChar_plain :
    ∀ l : List Char, (∀ c ∈ l, plainChar c) → l.flatMap jsonEscapeChar = l := by
  intro l
  induction l with
  | nil => intro _; rfl
  | cons c cs ih =>
    intro h
    rw [List.flatMap_cons]
    rw [jsonEscapeChar_plain c (h c (by simp))]
    rw [ih (fun x hx => h x (by simp [hx]))]
    rfl

theorem jsonEscape_plain (s : String) (h : ∀ c ∈ s.data, plainChar c) :
    jsonEscape s = s := by
  unfold jsonEscape
  rw [flatMap_jsonEscapeChar_plain s.data h]

theorem parseJsonStringChars_plain (l r : List Char) (h : ∀ c ∈ l, plainChar c) :
    parseJsonStringChars (l ++ '"' :: r) = some (l, r) := by
  induction l with
  | nil =>
    rw [List.nil_append, parseJsonStringChars.eq_def]
    simp
  | cons c cs ih =>
    obtain ⟨h1, h2, _⟩ := h c (by simp)
    rw [List.cons_append, parseJsonStringChars.eq_def]
    simp [h1, h2, ih (fun x hx => h x (by simp [hx]))]

theorem expectLit_append (lit : List Char) : ∀ l, expectLit lit (lit ++ l) = some l := by
  induction lit with
  | nil => intro l; rfl
  | cons c cs ih =>
    intro l
    simp only [List.cons_append, expectLit, if_pos rfl]
    exact ih l

theorem data_append (a b : String) : (a ++ b).data = a.data ++ b.data := rfl

theorem expectLit_nil_lit (l : List Char) : expectLit [] l = some l := rfl

theorem expectLit_cons_eq (c : Char) (cs xs : List Char) :
    expectLit (c :: cs) (c :: xs) = expectLit cs xs := by
  simp [expectLit]

theorem parseIntFrom_comma (i : Int) (r : List Char) :
    parseIntFrom (intToDecimal i ++ ',' :: r) = some (i, ',' :: r) :=
  parseIntFrom_intToDecimal i (',' :: r) (by exact rfl)

theorem parseIntFrom_brace (i : Int) :
    parseIntFrom (intToDecimal i ++ ['\x7d']) = some (i, ['\x7d']) :=
  parseIntFrom_intToDecimal i ['\x7d'] (by exact rfl)

theorem jsonStringifyPayload_data (p : TokenPayload)
    (h : ∀ c ∈ p.connectionId.data, plainChar c) :
    (jsonStringifyPayload p).data =
      '\x7b' :: '\"' :: 'c' :: 'o' :: 'n' :: 'n' :: 'e' :: 'c' :: 't' :: 'i' :: 'o' ::
        'n' :: 'I' :: 'd' :: '\"' :: ':' :: '\"' ::
      (p.connectionId.data ++ ('\"' ::
        ',' :: '\"' :: 'u' :: 's' :: 'e' :: 'r' :: 'I' :: 'd' :: '\"' :: ':' ::
        (intToDecimal p.userId ++ (
          ',' :: '\"' :: 'c' :: 'h' :: 'a' :: 't' :: 'I' :: 'd' :: '\"' :: ':' ::
          (intToDecimal p.chatId ++ (
            ',' :: '\"' :: 'e' :: 'x' :: 'p' :: '\"' :: ':' ::
            (intToDecimal p.exp ++ ['\x7d']))))))) := by
  unfold jsonStringifyPayload
  rw [jsonEscape_plain p.connectionId h]
  simp only [data_append, intStr, List.append_assoc]
  rfl

theorem jsonParsePayload_stringify (p : TokenPayload)
    (h : ∀ c ∈ p.connectionId.data, plainChar c) :
    jsonParsePayload (jsonStringifyPayload p) = some p := by
  unfold jsonParsePayload
  rw [jsonStringifyPayload_data p h]
  simp only [expectLit_cons_eq, expectLit_nil_lit, Option.bind_eq_bind, Option.some_bind,
    parseJsonStringChars_plain p.connectionId.data _ h, parseIntFrom_comma, parseIntFrom_brace,
    if_true, if_pos rfl]

theorem hmacSha256_length (secret : String) (m : List Nat) :
    (hmacSha256 secret m).length = 32 := by
  simp [hmacSha256]

theorem b64EncodeGroups_ne_nil (bs : List Nat) (h : bs ≠ []) :
    b64EncodeGroups bs ≠ [] := by
  match bs with
  | [] => exact absurd rfl h
  | [b1] => simp [b64EncodeGroups]
  | [b1, b2] => simp [b64EncodeGroups]
  | b1 :: b2 :: b3 :: rest => simp [b64EncodeGroups]

theorem base64urlOfBytes_no_dot (bs : List Nat) : '.' ∉ (base64urlOfBytes bs).data := by
  unfold base64urlOfBytes
  intro hmem
  rw [show (String.mk ((b64EncodeGroups bs).map b64Char)).data
      = (b64EncodeGroups bs).map b64Char from rfl] at hmem
  obtain ⟨s, _, hs⟩ := List.mem_map.mp hmem
  exact b64Char_ne_dot s hs

theorem base64urlOfBytes_ne_empty (bs : List Nat) (h : bs ≠ []) :
    base64urlOfBytes bs ≠ "" := by
  unfold base64urlOfBytes
  intro hcontra
  have hd : (b64EncodeGroups bs).map b64Char = ([] : List Char) :=
    congrArg String.data hcontra
  rw [List.map_eq_nil_iff] at hd
  exact b64EncodeGroups_ne_nil bs h hd

theorem jsSplit2Dot_wellFormed (ep sig : String) (hep : '.' ∉ ep.data)
    (hsig : '.' ∉ sig.data) : jsSplit2Dot (ep ++ "." ++ sig) = (ep, sig) := by
  unfold jsSplit2Dot
  have hdata2 : (ep ++ "." ++ sig).data = ep.data ++ '.' :: sig.data := by
    rw [data_append, data_append, List.append_assoc]
    rfl
  rw [hdata2]
  simp only [splitFirstDot_append_dot ep.data sig.data hep,
    splitFirstDot_no_dot sig.data hsig]

theorem intStr_data (i : Int) : (intStr i).data = intToDecimal i := rfl

theorem intToDecimal_ascii (i : Int) : ∀ c ∈ intToDecimal i, c.toNat < 256 := by
  intro c hc
  unfold intToDecimal at hc
  by_cases h : i < 0
  · rw [if_pos h] at hc
    rcases List.mem_cons.mp hc with rfl | h2
    · decide
    · have hd := natToDigits_all_digits i.natAbs c h2
      simp only [isDigitChar, Bool.and_eq_true, decide_eq_true_iff] at hd
      omega
  · rw [if_neg h] at hc
    have hd := natToDigits_all_digits i.natAbs c hc
    simp only [isDigitChar, Bool.and_eq_true, decide_eq_true_iff] at hd
    omega

theorem jsonStringifyPayload_ascii (p : TokenPayload)
    (h : ∀ c ∈ p.connectionId.data, plainChar c ∧ c.toNat < 256) :
    ∀ c ∈ (jsonStringifyPayload p).data, c.toNat < 256 := by
  have hesc : ∀ c ∈ (jsonEscape p.connectionId).data, c.toNat < 256 := by
    rw [jsonEscape_plain p.connectionId (fun c hc => (h c hc).1)]
    exact fun c hc => (h c hc).2
  unfold jsonStringifyPayload
  simp only [data_append, List.forall_mem_append, intStr_data]
  exact ⟨⟨⟨⟨⟨⟨⟨⟨by decide, hesc⟩, by decide⟩, intToDecimal_ascii _⟩, by decide⟩,
    intToDecimal_ascii _⟩, by decide⟩, intToDecimal_ascii _⟩, by decide⟩

theorem timingSafeEqual_refl (a : List Nat) : timingSafeEqual a a = Except.ok true := by
  simp [timingSafeEqual]

theorem except_ok_bind {α β : Type} (a : α) (f : α → Except String β) :
    (Except.ok a : Except String α) >>= f = f a := rfl

theorem except_pure {α : Type} (a : α) : (pure a : Except String α) = Except.ok a := rfl

set_option maxHeartbeats 2000000 in
/-- Master characterization: verifying an honestly generated token succeeds
exactly when the clock has not passed the embedded expiry and the expected
triple equals the issued one. -/
theorem decodeAndVerify_generate (now : Int) (secret cid : String)
    (uid chid exp : Int) (e : ExpectedTriple)
    (hcid : ∀ c ∈ cid.data, plainChar c ∧ c.toNat < 256) :
    decodeAndVerifyConnectionToken now secret
        (generateConnectionToken secret cid uid chid exp) e =
      if now ≤ exp ∧ e = ExpectedTriple.mk cid uid chid then
        some (TokenPayload.mk cid uid chid exp) else none := by
  obtain ⟨ecid, euid, echid⟩ := e
  have hplain : ∀ c ∈ cid.data, plainChar c := fun c h2 => (hcid c h2).1
  have hgen : generateConnectionToken secret cid uid chid exp =
      base64urlEncode (jsonStringifyPayload ⟨cid, uid, chid, exp⟩) ++ "." ++
        expectedHmacSignature secret
          (base64urlEncode (jsonStringifyPayload ⟨cid, uid, chid, exp⟩)) := rfl
  set ep := base64urlEncode (jsonStringifyPayload ⟨cid, uid, chid, exp⟩) with hepdef
  set sig := expectedHmacSignature secret ep with hsigdef
  have hepdot : '.' ∉ ep.data := base64urlOfBytes_no_dot _
  have hsigdot : '.' ∉ sig.data := base64urlOfBytes_no_dot _
  have hsignempty : sig ≠ "" := by
    apply base64urlOfBytes_ne_empty
    intro hnil
    have hlen := hmacSha256_length secret (strBytes ep)
    rw [hnil] at hlen
    simp at hlen
  have htokdata : (ep ++ "." ++ sig).data = ep.data ++ '.' :: sig.data := by
    rw [data_append, data_append, List.append_assoc]
    rfl
  have htokne : ep ++ "." ++ sig ≠ "" := by
    intro hcontra
    have h0 : (ep ++ "." ++ sig).data = [] := congrArg String.data hcontra
    rw [htokdata] at h0
    simp at h0
  have htokmem : '.' ∈ (ep ++ "." ++ sig).data := by
    rw [htokdata]
    simp
  have hsplit : jsSplit2Dot (ep ++ "." ++ sig) = (ep, sig) :=
    jsSplit2Dot_wellFormed ep sig hepdot hsigdot
  have hdec : base64DecodeToString ep = jsonStringifyPayload ⟨cid, uid, chid, exp⟩ :=
    base64DecodeToString_encode _ (jsonStringifyPayload_ascii _ hcid)
  have hparse : jsonParsePayload (base64DecodeToString ep) =
      some (TokenPayload.mk cid uid chid exp) := by
    rw [hdec]
    exact jsonParsePayload_stringify _ hplain
  rw [hgen]
  unfold decodeAndVerifyConnectionToken decodeAndVerifyAux
  by_cases hexp : now ≤ exp
  · have hngt : ¬ (now > exp) := by omega
    by_cases htrip : cid = ecid ∧ uid = euid ∧ chid = echid
    · obtain ⟨rfl, rfl, rfl⟩ := htrip
      simp only [hngt, hexp, htokne, htokmem, hsplit, hsignempty, hparse, ← hsigdef,
        timingSafeEqual_refl, ne_eq, eq_self_iff_true, not_true, not_false_eq_true,
        false_or, or_false, or_self, if_false, if_true, ite_false, ite_true,
        and_true, true_and, and_false, false_and, and_self, Bool.true_eq_false,
        ExpectedTriple.mk.injEq]
    · have htrip2 : ¬ (ecid = cid ∧ euid = uid ∧ echid = chid) :=
        fun hand => htrip ⟨hand.1.symm, hand.2.1.symm, hand.2.2.symm⟩
      simp only [hngt, hexp, htrip, htrip2, htokne, htokmem, hsplit, hsignempty, hparse, ← hsigdef,
        timingSafeEqual_refl, ne_eq, eq_self_iff_true, not_true, not_false_eq_true,
        false_or, or_false, or_self, if_false, if_true, ite_false, ite_true,
        and_true, true_and, and_false, false_and, and_self, Bool.true_eq_false,
        ExpectedTriple.mk.injEq]
  · have hngt : now > exp := by omega
    simp only [hngt, hexp, htokne, htokmem, hsplit, hsignempty, hparse, ← hsigdef,
        timingSafeEqual_refl, ne_eq, eq_self_iff_true, not_true, not_false_eq_true,
        false_or, or_false, or_self, if_false, if_true, ite_false, ite_true,
        and_true, true_and, and_false, false_and, and_self, Bool.true_eq_false,
        ExpectedTriple.mk.injEq]

theorem strBytes_inj (a b : String) (h : strBytes a = strBytes b) : a = b := by
  unfold strBytes at h
  have hinj : Function.Injective Char.toNat := by
    intro x y hxy
    have hval : x.val.toNat = y.val.toNat := hxy
    have : x.val = y.val := by
      have hx := x.val.toNat_lt
      have hy := y.val.toNat_lt
      exact UInt32.ext (by omega)
    exact Char.ext this
  have hdata : a.data = b.data := List.map_injective_iff.mpr hinj h
  cases a
  cases b
  exact congrArg String.mk hdata

theorem splitFirstDot_append_of_mem (l x : List Char) (h : '.' ∈ l) :
    splitFirstDot (l ++ x) = ((splitFirstDot l).1, (splitFirstDot l).2 ++ x) := by
  induction l with
  | nil => simp at h
  | cons c cs ih =>
    by_cases hc : c = '.'
    · subst hc
      simp [splitFirstDot]
    · have hmem : '.' ∈ cs := by
        rcases List.mem_cons.mp h with h1 | h1
        · exact absurd h1.symm hc
        · exact h1
      simp [splitFirstDot, hc, ih hmem]

theorem jsSplit2Dot_append (t s' : String) (h : '.' ∈ t.data) :
    jsSplit2Dot (t ++ "." ++ s') = jsSplit2Dot t := by
  unfold jsSplit2Dot
  have hdata2 : (t ++ "." ++ s').data = t.data ++ ('.' :: s'.data) := by
    rw [data_append, data_append, List.append_assoc]
    rfl
  rw [hdata2, splitFirstDot_append_of_mem t.data _ h]
  show (String.mk (splitFirstDot t.data).1,
      String.mk (splitFirstDot ((splitFirstDot t.data).2 ++ '.' :: s'.data)).1) =
    (String.mk (splitFirstDot t.data).1,
      String.mk (splitFirstDot (splitFirstDot t.data).2).1)
  by_cases hr : '.' ∈ (splitFirstDot t.data).2
  · rw [splitFirstDot_append_of_mem _ _ hr]
  · rw [splitFirstDot_append_dot _ _ hr, splitFirstDot_no_dot _ hr]

theorem decodeAndVerifyAux_extend (now : Int) (secret t s' : String)
    (e : ExpectedTriple) (hmem : '.' ∈ t.data) :
    decodeAndVerifyAux now secret (t ++ "." ++ s') e =
      decodeAndVerifyAux now secret t e := by
  have h2 : t ≠ "" := by
    intro hcontra
    subst hcontra
    simp at hmem
  have h1 : t ++ "." ++ s' ≠ "" := by
    intro hcontra
    have h0 : (t ++ "." ++ s').data = [] := congrArg String.data hcontra
    rw [data_append, data_append] at h0
    simp at h0
  have h3 : '.' ∈ (t ++ "." ++ s').data := by
    rw [data_append, data_append]
    simp only [List.mem_append]
    left
    right
    exact List.mem_singleton.mpr rfl
  have h4 : jsSplit2Dot (t ++ "." ++ s') = jsSplit2Dot t := jsSplit2Dot_append t s' hmem
  unfold decodeAndVerifyAux
  simp only [h1, h2, h3, hmem, h4, not_true, or_self, if_false, not_false_eq_true,
    false_or, or_false]

/-- C1: Token codec round-trip with mutation sensitivity.  For every valid
triple and expiry, verifying the issued token against the same triple
succeeds with the payload while the clock has not passed `exp`; verifying
against a triple with any single field mutated returns null, as does
verifying after `exp` has passed. -/
theorem C1_token_roundtrip_mutation (now : Int) (secret cid : String)
    (uid chid exp : Int) (hcid : validConnectionId cid) :
    (now ≤ exp →
      decodeAndVerifyConnectionToken now secret
          (generateConnectionToken secret cid uid chid exp)
          (ExpectedTriple.mk cid uid chid) =
        some (TokenPayload.mk cid uid chid exp)) ∧
    (∀ cid', cid' ≠ cid →
      decodeAndVerifyConnectionToken now secret
          (generateConnectionToken secret cid uid chid exp)
          (ExpectedTriple.mk cid' uid chid) = none) ∧
    (∀ uid', uid' ≠ uid →
      decodeAndVerifyConnectionToken now secret
          (generateConnectionToken secret cid uid chid exp)
          (ExpectedTriple.mk cid uid' chid) = none) ∧
    (∀ chid', chid' ≠ chid →
      decodeAndVerifyConnectionToken now secret
          (generateConnectionToken secret cid uid chid exp)
          (ExpectedTriple.mk cid uid chid') = none) ∧
    (exp < now →
      decodeAndVerifyConnectionToken now secret
          (generateConnectionToken secret cid uid chid exp)
          (ExpectedTriple.mk cid uid chid) = none) := by
  refine ⟨?_, ?_, ?_, ?_, ?_⟩
  · intro hle
    rw [decodeAndVerify_generate now secret cid uid chid exp _ hcid]
    rw [if_pos ⟨hle, rfl⟩]
  · intro cid' hne
    rw [decodeAndVerify_generate now secret cid uid chid exp _ hcid]
    rw [if_neg]
    intro hand
    have := hand.2
    rw [ExpectedTriple.mk.injEq] at this
    exact hne this.1
  · intro uid' hne
    rw [decodeAndVerify_generate now secret cid uid chid exp _ hcid]
    rw [if_neg]
    intro hand
    have := hand.2
    rw [ExpectedTriple.mk.injEq] at this
    exact hne this.2.1
  · intro chid' hne
    rw [decodeAndVerify_generate now secret cid uid chid exp _ hcid]
    rw [if_neg]
    intro hand
    have := hand.2
    rw [ExpectedTriple.mk.injEq] at this
    exact hne this.2.2
  · intro hlt
    rw [decodeAndVerify_generate now secret cid uid chid exp _ hcid]
    rw [if_neg]
    intro hand
    exact absurd hand.1 (by omega)

theorem C1_token_roundtrip_mutation_witness :
    validConnectionId "ab" ∧
    (decodeAndVerifyConnectionToken 100 "k"
        (generateConnectionToken "k" "ab" 7 9 200) (ExpectedTriple.mk "ab" 7 9) =
      some (TokenPayload.mk "ab" 7 9 200)) ∧
    (decodeAndVerifyConnectionToken 100 "k"
        (generateConnectionToken "k" "ab" 7 9 200) (ExpectedTriple.mk "xb" 7 9) = none) ∧
    (decodeAndVerifyConnectionToken 100 "k"
        (generateConnectionToken "k" "ab" 7 9 200) (ExpectedTriple.mk "ab" 8 9) = none) ∧
    (decodeAndVerifyConnectionToken 100 "k"
        (generateConnectionToken "k" "ab" 7 9 200) (ExpectedTriple.mk "ab" 7 10) = none) ∧
    (decodeAndVerifyConnectionToken 300 "k"
        (generateConnectionToken "k" "ab" 7 9 200) (ExpectedTriple.mk "ab" 7 9) = none) :=
  ⟨by decide,
    (C1_token_roundtrip_mutation 100 "k" "ab" 7 9 200 (by decide)).1 (by decide),
    (C1_token_roundtrip_mutation 100 "k" "ab" 7 9 200 (by decide)).2.1 "xb" (by decide),
    (C1_token_roundtrip_mutation 100 "k" "ab" 7 9 200 (by decide)).2.2.1 8 (by decide),
    (C1_token_roundtrip_mutation 100 "k" "ab" 7 9 200 (by decide)).2.2.2.1 10 (by decide),
    (C1_token_roundtrip_mutation 300 "k" "ab" 7 9 200 (by decide)).2.2.2.2 (by decide)⟩

/-- C10 (implicit): trailing token segments are ignored.  Any accepted token
remains accepted with the identical payload after appending `"." ++ s`,
because verification looks only at the first two dot-separated segments. -/
theorem C10_trailing_segments_ignored (now : Int) (secret t s' : String)
    (e : ExpectedTriple) (payload : TokenPayload)
    (hacc : decodeAndVerifyConnectionToken now secret t e = some payload) :
    decodeAndVerifyConnectionToken now secret (t ++ "." ++ s') e = some payload := by
  have hmem : '.' ∈ t.data := by
    by_contra hno
    unfold decodeAndVerifyConnectionToken decodeAndVerifyAux at hacc
    simp only [hno, not_false_eq_true, or_true, if_true] at hacc
    simp at hacc
  unfold decodeAndVerifyConnectionToken
  rw [decodeAndVerifyAux_extend now secret t s' e hmem]
  exact hacc

set_option maxRecDepth 40000 in
theorem C10_trailing_segments_ignored_witness :
    (decodeAndVerifyConnectionToken 0 "k" (generateConnectionToken "k" "ab" 1 2 5)
        (ExpectedTriple.mk "ab" 1 2) = some (TokenPayload.mk "ab" 1 2 5)) ∧
    (decodeAndVerifyConnectionToken 0 "k"
        (generateConnectionToken "k" "ab" 1 2 5 ++ "." ++ "junk")
        (ExpectedTriple.mk "ab" 1 2) = some (TokenPayload.mk "ab" 1 2 5)) := by
  have hacc : decodeAndVerifyConnectionToken 0 "k" (generateConnectionToken "k" "ab" 1 2 5)
      (ExpectedTriple.mk "ab" 1 2) = some (TokenPayload.mk "ab" 1 2 5) := by decide
  exact ⟨hacc, C10_trailing_segments_ignored 0 "k" _ "junk" _ _ hacc⟩

theorem strBytes_length (s : String) : (strBytes s).length = s.length := by
  unfold strBytes
  rw [List.length_map]
  rfl

/-- Hub characterization of verification on an arbitrary two-segment token. -/
theorem decodeAndVerifyAux_two_part (now : Int) (secret ep sig : String)
    (e : ExpectedTriple) (hep : '.' ∉ ep.data) (hsig : '.' ∉ sig.data) :
    decodeAndVerifyAux now secret (ep ++ "." ++ sig) e =
      (if sig = "" then Except.ok none
       else if sig.length ≠ (expectedHmacSignature secret ep).length then Except.ok none
       else if sig ≠ expectedHmacSignature secret ep then Except.ok none
       else match jsonParsePayload (base64DecodeToString ep) with
         | none => Except.error "SyntaxError: Unexpected token in JSON"
         | some payload =>
           if now > payload.exp then Except.ok none
           else if payload.connectionId = e.connectionId ∧ payload.userId = e.userId ∧
               payload.chatId = e.chatId then Except.ok (some payload)
           else Except.ok none) := by
  have htokdata : (ep ++ "." ++ sig).data = ep.data ++ '.' :: sig.data := by
    rw [data_append, data_append, List.append_assoc]
    rfl
  have htokne : ep ++ "." ++ sig ≠ "" := by
    intro hcontra
    have h0 : (ep ++ "." ++ sig).data = [] := congrArg String.data hcontra
    rw [htokdata] at h0
    simp at h0
  have htokmem : '.' ∈ (ep ++ "." ++ sig).data := by
    rw [htokdata]
    simp
  have hsplit : jsSplit2Dot (ep ++ "." ++ sig) = (ep, sig) :=
    jsSplit2Dot_wellFormed ep sig hep hsig
  unfold decodeAndVerifyAux
  simp only [htokne, htokmem, hsplit, not_true, or_self, if_false, not_false_eq_true,
    false_or, or_false, false_or]
  by_cases hse : sig = ""
  · simp only [hse, if_true, eq_self_iff_true, ite_true]
  · simp only [hse, if_false, ite_false]
    by_cases hlen : sig.length = (expectedHmacSignature secret ep).length
    · have hblen : (strBytes sig).length = (strBytes (expectedHmacSignature secret ep)).length := by
        rw [strBytes_length, strBytes_length]
        exact hlen
      have hts : timingSafeEqual (strBytes sig) (strBytes (expectedHmacSignature secret ep)) =
          Except.ok (decide (strBytes sig = strBytes (expectedHmacSignature secret ep))) := by
        unfold timingSafeEqual
        rw [if_pos hblen]
      simp only [hlen, ne_eq, not_true, if_false, eq_self_iff_true, not_false_eq_true,
        ite_false, ite_true, hts]
      by_cases heq : sig = expectedHmacSignature secret ep
      · have hbytes : (decide (strBytes sig =
            strBytes (expectedHmacSignature secret ep))) = true := by
          rw [heq]
          simp
        rw [hbytes]
        simp only [heq, Bool.true_eq_false, if_false, ite_false, ne_eq, not_true,
          eq_self_iff_true]
      · have hbytes : (decide (strBytes sig = strBytes (expectedHmacSignature secret ep))) = false := by
          simp only [decide_eq_false_iff_not]
          intro habs
          exact heq (strBytes_inj _ _ habs)
        rw [hbytes]
        simp only [heq, ne_eq, not_false_eq_true, if_true, ite_true, eq_self_iff_true,
          if_pos rfl]
    · simp only [hlen, ne_eq, not_false_eq_true, if_true, ite_true]

/-- C8: token verification fails closed and uniformly.  Malformed tokens
(empty or without the delimiter), a signature of the wrong length (rejected
at the Except level, i.e. before the byte comparison that would throw), a
signature byte mismatch, an undecodable payload (the `JSON.parse`
`SyntaxError` is swallowed by the catch), a passed expiry, and an expected
triple mismatch all produce the very same `none` result, and none of them
lets an exception reach the caller. -/
theorem C8_uniform_fail_closed (now : Int) (secret : String) (e : ExpectedTriple) :
    (∀ token : String, token = "" ∨ '.' ∉ token.data →
      decodeAndVerifyConnectionToken now secret token e = none) ∧
    (∀ ep sig : String, '.' ∉ ep.data → '.' ∉ sig.data →
      sig.length ≠ (expectedHmacSignature secret ep).length →
      decodeAndVerifyAux now secret (ep ++ "." ++ sig) e = Except.ok none) ∧
    (∀ ep sig : String, '.' ∉ ep.data → '.' ∉ sig.data →
      sig ≠ expectedHmacSignature secret ep →
      decodeAndVerifyConnectionToken now secret (ep ++ "." ++ sig) e = none) ∧
    (∀ ep sig : String, '.' ∉ ep.data → '.' ∉ sig.data →
      jsonParsePayload (base64DecodeToString ep) = none →
      decodeAndVerifyConnectionToken now secret (ep ++ "." ++ sig) e = none) ∧
    (∀ cid uid chid exp, validConnectionId cid → now > exp →
      decodeAndVerifyConnectionToken now secret
        (generateConnectionToken secret cid uid chid exp)
        (ExpectedTriple.mk cid uid chid) = none) ∧
    (∀ cid uid chid exp e', validConnectionId cid →
      e' ≠ ExpectedTriple.mk cid uid chid →
      decodeAndVerifyConnectionToken now secret
        (generateConnectionToken secret cid uid chid exp) e' = none) := by
  refine ⟨?_, ?_, ?_, ?_, ?_, ?_⟩
  · intro token h
    unfold decodeAndVerifyConnectionToken decodeAndVerifyAux
    rw [if_pos h]
  · intro ep sig hep hsig hlen
    rw [decodeAndVerifyAux_two_part now secret ep sig e hep hsig]
    by_cases hse : sig = ""
    · simp [hse]
    · simp [hse, hlen]
  · intro ep sig hep hsig hne
    unfold decodeAndVerifyConnectionToken
    rw [decodeAndVerifyAux_two_part now secret ep sig e hep hsig]
    by_cases hse : sig = ""
    · simp [hse]
    · by_cases hlen : sig.length = (expectedHmacSignature secret ep).length
      · simp [hse, hlen, hne]
      · simp [hse, hlen]
  · intro ep sig hep hsig hparse
    unfold decodeAndVerifyConnectionToken
    rw [decodeAndVerifyAux_two_part now secret ep sig e hep hsig]
    by_cases hse : sig = ""
    · simp [hse]
    · by_cases hlen : sig.length = (expectedHmacSignature secret ep).length
      · by_cases heq : sig = expectedHmacSignature secret ep
        · rw [heq] at hse
          simp [hse, hlen, heq, hparse]
        · simp [hse, hlen, heq]
      · simp [hse, hlen]
  · intro cid uid chid exp hcid hgt
    rw [decodeAndVerify_generate now secret cid uid chid exp _ hcid]
    rw [if_neg]
    intro hand
    exact absurd hand.1 (by omega)
  · intro cid uid chid exp e' hcid hne
    rw [decodeAndVerify_generate now secret cid uid chid exp _ hcid]
    rw [if_neg]
    intro hand
    exact hne hand.2

set_option maxRecDepth 40000 in
theorem C8_uniform_fail_closed_witness :
    (decodeAndVerifyConnectionToken 0 "k" "abc" (ExpectedTriple.mk "ab" 1 2) = none) ∧
    (decodeAndVerifyAux 0 "k" ("A" ++ "." ++ "x") (ExpectedTriple.mk "ab" 1 2) =
      Except.ok none) ∧
    (decodeAndVerifyConnectionToken 0 "k" ("A" ++ "." ++ "x")
      (ExpectedTriple.mk "ab" 1 2) = none) ∧
    (decodeAndVerifyConnectionToken 0 "k" ("-" ++ "." ++ "x")
      (ExpectedTriple.mk "ab" 1 2) = none) ∧
    (decodeAndVerifyConnectionToken 10 "k" (generateConnectionToken "k" "ab" 1 2 5)
      (ExpectedTriple.mk "ab" 1 2) = none) ∧
    (decodeAndVerifyConnectionToken 0 "k" (generateConnectionToken "k" "ab" 1 2 5)
      (ExpectedTriple.mk "ab" 1 3) = none) :=
  ⟨(C8_uniform_fail_closed 0 "k" (ExpectedTriple.mk "ab" 1 2)).1 "abc" (by decide),
    (C8_uniform_fail_closed 0 "k" (ExpectedTriple.mk "ab" 1 2)).2.1 "A" "x"
      (by decide) (by decide) (by decide),
    (C8_uniform_fail_closed 0 "k" (ExpectedTriple.mk "ab" 1 2)).2.2.1 "A" "x"
      (by decide) (by decide) (by decide),
    (C8_uniform_fail_closed 0 "k" (ExpectedTriple.mk "ab" 1 2)).2.2.2.1 "-" "x"
      (by decide) (by decide) (by decide),
    (C8_uniform_fail_closed 10 "k" (ExpectedTriple.mk "ab" 1 2)).2.2.2.2.1 "ab" 1 2 5
      (by decide) (by decide),
    (C8_uniform_fail_closed 0 "k" (ExpectedTriple.mk "ab" 1 2)).2.2.2.2.2 "ab" 1 2 5
      (ExpectedTriple.mk "ab" 1 3) (by decide) (by decide)⟩

/-! ### C9: token key material (`getConnectionTokenSecret`) -/
/-- C9 counterexample: with no secret configured, the codec signs with the
hard-coded constant key, so "for no configuration does the codec sign with a
hard-coded constant key" is false. -/
theorem C9_hardcoded_fallback_counterexample :
    getConnectionTokenSecret (SecretsConfig.mk none none none) =
      "connection-dev-secret" := rfl

/-- C9 (amended): the token secret is the first truthy one of the session
secret, the JWT secret and the encryption key; when none of them is
configured (unset or empty), it falls back to the hard-coded development
constant. -/
theorem C9_secret_fallback_characterization (cfg : SecretsConfig) :
    (∀ s, cfg.sessionSecret = some s → s ≠ "" → getConnectionTokenSecret cfg = s) ∧
    (∀ s, (cfg.sessionSecret = none ∨ cfg.sessionSecret = some "") →
      cfg.jwtSecret = some s → s ≠ "" → getConnectionTokenSecret cfg = s) ∧
    (∀ s, (cfg.sessionSecret = none ∨ cfg.sessionSecret = some "") →
      (cfg.jwtSecret = none ∨ cfg.jwtSecret = some "") →
      cfg.encryptionKey = some s → s ≠ "" → getConnectionTokenSecret cfg = s) ∧
    ((cfg.sessionSecret = none ∨ cfg.sessionSecret = some "") →
      (cfg.jwtSecret = none ∨ cfg.jwtSecret = some "") →
      (cfg.encryptionKey = none ∨ cfg.encryptionKey = some "") →
      getConnectionTokenSecret cfg = "connection-dev-secret") := by
  refine ⟨?_, ?_, ?_, ?_⟩
  · intro s hs hne
    unfold getConnectionTokenSecret jsOrString
    rw [hs]
    simp [hne]
  · intro s h1 hs hne
    unfold getConnectionTokenSecret jsOrString
    rcases h1 with h1 | h1 <;> rw [h1, hs] <;> simp [hne]
  · intro s h1 h2 hs hne
    unfold getConnectionTokenSecret jsOrString
    rcases h1 with h1 | h1 <;> rcases h2 with h2 | h2 <;>
      rw [h1, h2, hs] <;> simp [hne]
  · intro h1 h2 h3
    unfold getConnectionTokenSecret jsOrString
    rcases h1 with h1 | h1 <;> rcases h2 with h2 | h2 <;> rcases h3 with h3 | h3 <;>
      rw [h1, h2, h3] <;> simp

theorem C9_secret_fallback_characterization_witness :
    (getConnectionTokenSecret (SecretsConfig.mk (some "sess") (some "jwt") none) =
      "sess") ∧
    (getConnectionTokenSecret (SecretsConfig.mk none (some "jwt") (some "enc")) =
      "jwt") ∧
    (getConnectionTokenSecret (SecretsConfig.mk (some "") none (some "enc")) =
      "enc") ∧
    (getConnectionTokenSecret (SecretsConfig.mk (some "") (some "") none) =
      "connection-dev-secret") :=
  ⟨(C9_secret_fallback_characterization _).1 "sess" rfl (by decide),
    (C9_secret_fallback_characterization _).2.1 "jwt" (Or.inl rfl) rfl (by decide),
    (C9_secret_fallback_characterization _).2.2.1 "enc" (Or.inr rfl) (Or.inl rfl) rfl
      (by decide),
    (C9_secret_fallback_characterization _).2.2.2 (Or.inr rfl) (Or.inr rfl)
      (Or.inl rfl)⟩

/-- C2: signature decoding order and fail-closed verification.  The decoder
tries base64, then base58, then hex, using the first decode that yields
exactly 64 bytes; when no attempted decoding yields exactly 64 bytes,
`decodeSignature` is `null` and `verifyWalletSignature` returns `false` for
every wallet address, challenge and behaviour of the cryptographic
libraries — including throwing ones, so no exception reaches the caller. -/
theorem C2_signature_decode_order_fail_closed (oracle : SignatureOracles) :
    (∀ s, jsTrim s ≠ "" → (base64Decode (jsTrim s)).length = 64 →
      decodeSignature s = some (base64Decode (jsTrim s))) ∧
    (∀ s b, jsTrim s ≠ "" → (base64Decode (jsTrim s)).length ≠ 64 →
      base58Decode (jsTrim s) = some b → b.length = 64 →
      decodeSignature s = some b) ∧
    (∀ s, jsTrim s ≠ "" → (base64Decode (jsTrim s)).length ≠ 64 →
      (base58Decode (jsTrim s)).map List.length ≠ some 64 →
      (nodeHexDecode (jsTrim s).data).length = 64 →
      decodeSignature s = some (nodeHexDecode (jsTrim s).data)) ∧
    (∀ s, (base64Decode (jsTrim s)).length ≠ 64 →
      (base58Decode (jsTrim s)).map List.length ≠ some 64 →
      (nodeHexDecode (jsTrim s).data).length ≠ 64 →
      decodeSignature s = none ∧
      ∀ walletAddress challenge,
        verifyWalletSignature oracle walletAddress s challenge = false) := by
  refine ⟨?_, ?_, ?_, ?_⟩
  · intro s hne h64
    unfold decodeSignature
    simp only [hne, if_false, ite_false, h64, if_true, ite_true, eq_self_iff_true]
  · intro s b hne h64 hb58 hb64
    unfold decodeSignature
    simp only [hne, if_false, ite_false, h64, hb58, hb64, if_true, ite_true,
      eq_self_iff_true]
  · intro s hne h64 hb58 hhex
    unfold decodeSignature
    cases hcase : base58Decode (jsTrim s) with
    | none =>
      simp only [hne, if_false, ite_false, h64, hcase, hhex, if_true, ite_true,
        eq_self_iff_true]
    | some b =>
      have hblen : b.length ≠ 64 := by
        intro habs
        apply hb58
        rw [hcase]
        simp [habs]
      simp only [hne, if_false, ite_false, h64, hcase, hblen, hhex, if_true, ite_true,
        eq_self_iff_true]
  · intro s h64 hb58 hhex
    have hdec : decodeSignature s = none := by
      unfold decodeSignature
      by_cases hne : jsTrim s = ""
      · simp only [hne, if_true, ite_true]
      · cases hcase : base58Decode (jsTrim s) with
        | none =>
          simp only [hne, if_false, ite_false, h64, hcase, hhex]
        | some b =>
          have hblen : b.length ≠ 64 := by
            intro habs
            apply hb58
            rw [hcase]
            simp [habs]
          simp only [hne, if_false, ite_false, h64, hcase, hblen, hhex]
    refine ⟨hdec, ?_⟩
    intro walletAddress challenge
    unfold verifyWalletSignature
    rw [hdec]

set_option maxRecDepth 40000 in
theorem C2_signature_decode_order_fail_closed_witness :
    (decodeSignature
        "AAAAAAAAAAAAAAAAAAAAAAAAAAAAAAAAAAAAAAAAAAAAAAAAAAAAAAAAAAAAAAAAAAAAAAAAAAAAAAAAAAAAAA" =
      some (List.replicate 64 0)) ∧
    (decodeSignature "1111111111111111111111111111111111111111111111111111111111111111" =
      some (List.replicate 64 0)) ∧
    (decodeSignature "zz" = none) ∧
    (verifyWalletSignature
        (SignatureOracles.mk (fun _ => Except.ok (List.replicate 32 0))
          (fun _ _ _ => Except.ok true))
        "anyAddress" "zz" "anyChallenge" = false) := by
  have horacle : SignatureOracles := SignatureOracles.mk
    (fun _ => Except.ok (List.replicate 32 0)) (fun _ _ _ => Except.ok true)
  refine ⟨?_, ?_, ?_, ?_⟩
  · have h := (C2_signature_decode_order_fail_closed
      (SignatureOracles.mk (fun _ => Except.ok (List.replicate 32 0))
        (fun _ _ _ => Except.ok true))).1
      "AAAAAAAAAAAAAAAAAAAAAAAAAAAAAAAAAAAAAAAAAAAAAAAAAAAAAAAAAAAAAAAAAAAAAAAAAAAAAAAAAAAAAA"
      (by decide) (by decide)
    rw [h]
    decide
  · have h := (C2_signature_decode_order_fail_closed
      (SignatureOracles.mk (fun _ => Except.ok (List.replicate 32 0))
        (fun _ _ _ => Except.ok true))).2.1
      "1111111111111111111111111111111111111111111111111111111111111111"
      (List.replicate 64 0) (by decide) (by decide) (by decide) (by decide)
    exact h
  · exact ((C2_signature_decode_order_fail_closed
      (SignatureOracles.mk (fun _ => Except.ok (List.replicate 32 0))
        (fun _ _ _ => Except.ok true))).2.2.2
      "zz" (by decide) (by decide) (by decide)).1
  · exact ((C2_signature_decode_order_fail_closed
      (SignatureOracles.mk (fun _ => Except.ok (List.replicate 32 0))
        (fun _ _ _ => Except.ok true))).2.2.2
      "zz" (by decide) (by decide) (by decide)).2 "anyAddress" "anyChallenge"

theorem find?_connUpdate (connectionId : String) (v : Conn) :
    ∀ l : List (String × Conn),
      (connUpdate connectionId v l).find? (fun p => decide (p.1 = connectionId)) =
        (l.find? (fun p => decide (p.1 = connectionId))).map
          (fun _ => (connectionId, v)) := by
  intro l
  induction l with
  | nil => rfl
  | cons p rest ih =>
    by_cases hp : p.1 = connectionId
    · unfold connUpdate
      rw [List.map_cons, if_pos hp]
      rw [List.find?_cons_of_pos _ (by simp [hp]), List.find?_cons_of_pos _ (by simp [hp])]
      simp [hp]
    · unfold connUpdate
      rw [List.map_cons, if_neg hp]
      rw [List.find?_cons_of_neg _ (by simp [hp]), List.find?_cons_of_neg _ (by simp [hp])]
      exact ih

theorem connLookup_connUpdate (db : DB) (connectionId : String) (v : Conn) :
    connLookup { db with connections := connUpdate connectionId v db.connections }
        connectionId = (connLookup db connectionId).map (fun _ => v) := by
  unfold connLookup
  show ((connUpdate connectionId v db.connections).find?
      (fun p => decide (p.1 = connectionId))).map Prod.snd = _
  rw [find?_connUpdate connectionId v db.connections]
  cases db.connections.find? (fun p => decide (p.1 = connectionId)) <;> rfl

theorem find?_key_eq_of_nodup :
    ∀ (l : List (String × Conn)) (k : String) (q : String × Conn),
      (l.map Prod.fst).Nodup →
      l.find? (fun p => decide (p.1 = k)) = some q →
      ∀ x ∈ l, x.1 = k → x = q := by
  intro l
  induction l with
  | nil =>
    intro k q _ hf
    simp [List.find?] at hf
  | cons p rest ih =>
    intro k q hnd hf x hx hxk
    rw [List.map_cons, List.nodup_cons] at hnd
    by_cases hp : p.1 = k
    · rw [List.find?_cons_of_pos _ (by simp [hp])] at hf
      injection hf with hq
      rcases List.mem_cons.mp hx with rfl | hx2
      · exact hq
      · exfalso
        apply hnd.1
        rw [hp, ← hxk]
        exact List.mem_map_of_mem Prod.fst hx2
    · rw [List.find?_cons_of_neg _ (by simp [hp])] at hf
      rcases List.mem_cons.mp hx with rfl | hx2
      · exact absurd hxk hp
      · exact ih k q hnd.2 hf x hx2 hxk

/-- C5 counterexample: in the volatile backend, `getPendingConnection`
returns the stored record even though its status is `completed` and its
`expiresAt` (100) is long past (`now` = 200) — the claim requires `null` in
both backends. -/
theorem C5_memory_no_filter_counterexample :
    getPendingConnection 200 sampleMemoryDB "c1" = some sampleCompletedConn := by
  decide

/-- C5 (amended): the MongoDB backend honours the contract — `null` when the
record is missing, not `pending`, or past `expiresAt` — while the in-memory
backend performs a bare `Map.get` and returns whatever is stored, with no
status or expiry filter, so the two backends are observably different. -/
theorem C5_getPending_contract (now : Int) (db : DB) (connectionId : String) :
    (db.memoryMode = true →
      getPendingConnection now db connectionId = connLookup db connectionId) ∧
    (db.memoryMode = false →
      (connLookup db connectionId = none →
        getPendingConnection now db connectionId = none) ∧
      (∀ c, getPendingConnection now db connectionId = some c →
        c.status = ConnStatus.pending ∧ now < c.expiresAt) ∧
      (∀ c, (db.connections.map Prod.fst).Nodup →
        connLookup db connectionId = some c →
        (c.status ≠ ConnStatus.pending ∨ c.expiresAt ≤ now) →
        getPendingConnection now db connectionId = none)) := by
  constructor
  · intro hm
    unfold getPendingConnection
    rw [if_pos hm]
  · intro hm
    refine ⟨?_, ?_, ?_⟩
    · intro hnone
      unfold getPendingConnection
      rw [if_neg (by rw [hm]; exact Bool.false_ne_true)]
      unfold connLookup at hnone
      rw [Option.map_eq_none'] at hnone
      rw [List.find?_eq_none] at hnone
      rw [List.find?_eq_none.mpr]
      · rfl
      · intro x hx
        simp only [decide_eq_true_eq, not_and]
        intro hxk
        exact absurd (by simp [hxk] : decide (x.1 = connectionId) = true) (hnone x hx)
    · intro c hc
      unfold getPendingConnection at hc
      rw [if_neg (by rw [hm]; exact Bool.false_ne_true)] at hc
      rw [Option.map_eq_some'] at hc
      obtain ⟨q, hq, hqc⟩ := hc
      have := List.find?_some hq
      simp only [decide_eq_true_eq] at this
      rw [← hqc]
      exact ⟨this.2.1, this.2.2⟩
    · intro c hnd hc hbad
      unfold getPendingConnection
      rw [if_neg (by rw [hm]; exact Bool.false_ne_true)]
      rw [List.find?_eq_none.mpr]
      · rfl
      · intro x hx
        simp only [decide_eq_true_eq, not_and]
        intro hxk hrest
        unfold connLookup at hc
        rw [Option.map_eq_some'] at hc
        obtain ⟨q, hq, hqc⟩ := hc
        have hxq : x = q := find?_key_eq_of_nodup db.connections connectionId q hnd hq x hx hxk
        rw [hxq, hqc] at hrest
        intro hlt
        rw [hxq, hqc] at hlt
        rcases hbad with hbad | hbad
        · exact hbad hrest
        · omega

theorem C5_getPending_contract_witness :
    (getPendingConnection 200 sampleMemoryDB "c1" = connLookup sampleMemoryDB "c1") ∧
    (getPendingConnection 200 sampleMongoDB "c1" = none) :=
  ⟨(C5_getPending_contract 200 sampleMemoryDB "c1").1 rfl,
    ((C5_getPending_contract 200 sampleMongoDB "c1").2 rfl).2.2 sampleCompletedConn
      (by decide) (by decide) (Or.inl (by decide))⟩

/-- C4 counterexample: store operations do move records out of `completed` —
`cancelConnection` (memory mode) turns the completed record `cancelled`, and
`completeConnection` overwrites the fields of an already completed record
with a different wallet address. -/
theorem C4_transition_out_of_completed_counterexample :
    (connLookup (cancelConnection sampleMemoryDB "c1").1 "c1" =
      some { sampleCompletedConn with status := ConnStatus.cancelled }) ∧
    (connLookup (completeConnection 300 sampleMongoDB "c1" "addrB").1 "c1" =
      some { sampleCompletedConn with
        status := ConnStatus.completed
        walletAddress := some "addrB"
        completedAt := some 300 }) := by
  constructor
  · decide
  · decide

/-- C4 (amended): the store operations do not consult the current status.
`completeConnection` unconditionally rewrites any existing record — whatever
its status, including `completed` — to `completed` with fresh
`walletAddress`/`completedAt`, and `cancelConnection` in memory mode marks
any existing record `cancelled` (in MongoDB mode it writes nothing).  The
pending-only guard lives solely in `handleWalletCallback`, not in the
store. -/
theorem C4_store_writes_ignore_status (now : Int) (db : DB)
    (connectionId walletAddress : String) (c : Conn)
    (hc : connLookup db connectionId = some c) :
    ((completeConnection now db connectionId walletAddress).2 =
      some { c with
        status := ConnStatus.completed
        walletAddress := some walletAddress
        completedAt := some now }) ∧
    (connLookup (completeConnection now db connectionId walletAddress).1 connectionId =
      some { c with
        status := ConnStatus.completed
        walletAddress := some walletAddress
        completedAt := some now }) ∧
    (db.memoryMode = true →
      connLookup (cancelConnection db connectionId).1 connectionId =
        some { c with status := ConnStatus.cancelled }) ∧
    (db.memoryMode = false → (cancelConnection db connectionId).1 = db) := by
  refine ⟨?_, ?_, ?_, ?_⟩
  · unfold completeConnection
    rw [hc]
  · unfold completeConnection
    rw [hc]
    show connLookup { db with connections := connUpdate connectionId _ db.connections }
        connectionId = _
    rw [connLookup_connUpdate, hc]
    rfl
  · intro hm
    unfold cancelConnection
    rw [if_pos hm, hc]
    show connLookup { db with connections := connUpdate connectionId _ db.connections }
        connectionId = _
    rw [connLookup_connUpdate, hc]
    rfl
  · intro hm
    unfold cancelConnection
    rw [if_neg (by rw [hm]; exact Bool.false_ne_true)]

theorem C4_store_writes_ignore_status_witness :
    ((completeConnection 300 sampleMongoDB "c1" "addrB").2 =
      some { sampleCompletedConn with
        status := ConnStatus.completed
        walletAddress := some "addrB"
        completedAt := some 300 }) ∧
    (connLookup (cancelConnection sampleMemoryDB "c1").1 "c1" =
      some { sampleCompletedConn with status := ConnStatus.cancelled }) :=
  ⟨(C4_store_writes_ignore_status 300 sampleMongoDB "c1" "addrB"
      sampleCompletedConn (by decide)).1,
    (C4_store_writes_ignore_status 300 sampleMemoryDB "c1" "addrB"
      sampleCompletedConn (by decide)).2.2.1 rfl⟩

/-- C7 counterexample: the sweep deletes a record whose `expiresAt` has
passed even though its status is `completed` — the claim requires completed
records to be left unchanged. -/
theorem C7_sweep_removes_expired_completed_counterexample :
    (connLookup sampleMemoryDB "c1" = some sampleCompletedConn) ∧
    (sampleCompletedConn.status = ConnStatus.completed) ∧
    (connLookup (cleanupTick 200 sampleMemoryDB) "c1" = none) := by
  refine ⟨by decide, by decide, by decide⟩

/-- C7 (amended): the sweep keeps exactly the records whose `expiresAt` has
not passed — filtering on expiry alone, with no status test, in both
backends — and leaves everything else in the store (mode, wallets)
unchanged.  In particular unexpired records of any status survive, but
expired `completed` records are removed as well. -/
theorem C7_sweep_filters_on_expiry_only (now : Int) (db : DB) :
    (∀ p, p ∈ (deleteExpiredConnections now db).connections ↔
      p ∈ db.connections ∧ ¬ p.2.expiresAt < now) ∧
    (∀ p, p ∈ (cleanupTick now db).connections ↔
      p ∈ db.connections ∧ ¬ p.2.expiresAt < now) ∧
    ((cleanupTick now db).memoryMode = db.memoryMode ∧
      (cleanupTick now db).wallets = db.wallets) := by
  refine ⟨?_, ?_, ?_⟩
  · intro p
    unfold deleteExpiredConnections
    simp [List.mem_filter]
  · intro p
    unfold cleanupTick deleteExpiredConnections
    by_cases hm : db.memoryMode <;>
      simp [hm, List.mem_filter]
  · unfold cleanupTick deleteExpiredConnections
    by_cases hm : db.memoryMode <;> simp [hm]

theorem callbackTail_success (env : CallbackEnv) (db : DB) (ncid : String)
    (conn : Option Conn) (euid echid : Int) (data : CallbackData)
    (payload : TokenPayload)
    (haddr : env.isValidAddress data.walletAddress = true)
    (hsig : verifyWalletSignature env.signatureOracles data.walletAddress
      (jsTrim data.signature)
      (buildWalletSignatureChallenge ncid euid echid
        (challengeExpiry conn payload)) = true) :
    (handleWalletCallbackTail env db ncid conn euid echid data payload).2.isSuccess =
      true := by
  simp only [handleWalletCallbackTail, haddr, Bool.true_eq_false, if_false,
    ite_false, hsig]
  cases hfind : (getUserWallets db euid).find?
      (fun w => decide (w.address = data.walletAddress)) with
  | some w => rfl
  | none => rfl

theorem callback_absent_token_invalid (env : CallbackEnv) (db₂ : DB)
    (data : CallbackData)
    (h1 : jsTrim data.connectionId ≠ "") (h2 : ¬ data.userId ≤ 0)
    (h3 : ¬ data.chatId ≤ 0) (h4 : jsTrim data.signature ≠ "")
    (habsent : getPendingConnection env.now db₂ (jsTrim data.connectionId) = none)
    (htok : decodeAndVerifyConnectionToken env.now env.secret data.connToken
      (ExpectedTriple.mk (jsTrim data.connectionId) data.userId data.chatId) = none) :
    handleWalletCallback env db₂ data =
      (db₂, CallbackResult.failure "Invalid connection token") := by
  simp only [handleWalletCallback, h1, h2, h3, h4, ne_eq, ite_false, if_false,
    habsent, htok]

theorem callback_absent_success (env : CallbackEnv) (db₂ : DB)
    (data : CallbackData) (payload : TokenPayload)
    (h1 : jsTrim data.connectionId ≠ "") (h2 : ¬ data.userId ≤ 0)
    (h3 : ¬ data.chatId ≤ 0) (h4 : jsTrim data.signature ≠ "")
    (habsent : getPendingConnection env.now db₂ (jsTrim data.connectionId) = none)
    (htok : decodeAndVerifyConnectionToken env.now env.secret data.connToken
      (ExpectedTriple.mk (jsTrim data.connectionId) data.userId data.chatId) =
        some payload)
    (haddr : env.isValidAddress data.walletAddress = true)
    (hsig : verifyWalletSignature env.signatureOracles data.walletAddress
      (jsTrim data.signature)
      (buildWalletSignatureChallenge (jsTrim data.connectionId) data.userId
        data.chatId payload.exp) = true) :
    (handleWalletCallback env db₂ data).2.isSuccess = true := by
  simp only [handleWalletCallback, h1, h2, h3, h4, ne_eq, ite_false, if_false,
    habsent, htok]
  exact callbackTail_success env db₂ (jsTrim data.connectionId) none data.userId
    data.chatId data payload haddr hsig

theorem callback_returns_already_used (env : CallbackEnv) (db₂ : DB)
    (data : CallbackData) (v : Conn) (payload : TokenPayload)
    (hnorm : jsTrim data.connectionId = data.connectionId)
    (hcid : data.connectionId ≠ "") (huid : 0 < data.userId)
    (hchid : 0 < data.chatId) (hsge : jsTrim data.signature ≠ "")
    (hpend : getPendingConnection env.now db₂ data.connectionId = some v)
    (hvuid : v.userId = data.userId) (hvchid : v.chatId = data.chatId)
    (hvst : v.status = ConnStatus.completed)
    (htok : decodeAndVerifyConnectionToken env.now env.secret data.connToken
      (ExpectedTriple.mk data.connectionId data.userId data.chatId) =
        some payload) :
    (handleWalletCallback env db₂ data).2 =
      CallbackResult.failure "Connection already used" := by
  have huid' : ¬ data.userId ≤ 0 := by omega
  have hchid' : ¬ data.chatId ≤ 0 := by omega
  have hne : ConnStatus.completed ≠ ConnStatus.pending :=
    fun h => ConnStatus.noConfusion h
  simp only [handleWalletCallback, hnorm, hcid, huid', hchid', hsge, ne_eq,
    ite_false, if_false, hpend, hvuid, hvchid, eq_self_iff_true, not_true,
    or_self, htok, hvst, hne, not_false_iff, if_true, ite_true]

theorem find?_pending_of_key (now : Int) (id : String) :
    ∀ (l : List (String × Conn)) (q : String × Conn),
      l.find? (fun p => decide (p.1 = id)) = some q →
      q.2.status = ConnStatus.pending → now < q.2.expiresAt →
      l.find? (fun p => decide (p.1 = id ∧ p.2.status = ConnStatus.pending ∧
        now < p.2.expiresAt)) = some q := by
  intro l
  induction l with
  | nil =>
    intro q hf
    simp [List.find?] at hf
  | cons p rest ih =>
    intro q hf hst hexp
    by_cases hp : p.1 = id
    · rw [List.find?_cons_of_pos _ (by simp [hp])] at hf
      injection hf with hq
      subst hq
      rw [List.find?_cons_of_pos _ (by simp [hp, hst, hexp])]
    · rw [List.find?_cons_of_neg _ (by simp [hp])] at hf
      rw [List.find?_cons_of_neg _ (by simp [hp])]
      exact ih q hf hst hexp

theorem getPending_of_lookup (now : Int) (db : DB) (id : String) (c : Conn)
    (hl : connLookup db id = some c) (hst : c.status = ConnStatus.pending)
    (hexp : now < c.expiresAt) :
    getPendingConnection now db id = some c := by
  unfold getPendingConnection
  by_cases hm : db.memoryMode
  · rw [if_pos hm]
    exact hl
  · rw [if_neg hm]
    unfold connLookup at hl
    rcases Option.map_eq_some'.mp hl with ⟨q, hq, hq2⟩
    rw [find?_pending_of_key now id db.connections q hq (by rw [hq2]; exact hst)
      (by rw [hq2]; exact hexp)]
    rw [Option.map_some', hq2]

theorem find?_pending_connUpdate_completed (now : Int) (id : String) (v : Conn)
    (hv : v.status ≠ ConnStatus.pending) (l : List (String × Conn)) :
    (connUpdate id v l).find? (fun p => decide (p.1 = id ∧
      p.2.status = ConnStatus.pending ∧ now < p.2.expiresAt)) = none := by
  rw [List.find?_eq_none]
  intro x hx
  rcases List.mem_map.mp hx with ⟨p, hp, hpx⟩
  by_cases h : p.1 = id
  · rw [if_pos h] at hpx
    subst hpx
    simp [hv]
  · rw [if_neg h] at hpx
    subst hpx
    simp [h]

theorem callback_firstCall_eq (env : CallbackEnv) (db : DB) (data : CallbackData)
    (c : Conn) (payload : TokenPayload)
    (hnorm : jsTrim data.connectionId = data.connectionId)
    (hcid : data.connectionId ≠ "") (huid : 0 < data.userId)
    (hchid : 0 < data.chatId) (hsge : jsTrim data.signature ≠ "")
    (hl : connLookup db data.connectionId = some c)
    (hcst : c.status = ConnStatus.pending)
    (hcuid : c.userId = data.userId) (hcchid : c.chatId = data.chatId)
    (hcexp : env.now < c.expiresAt)
    (htok : decodeAndVerifyConnectionToken env.now env.secret data.connToken
      (ExpectedTriple.mk data.connectionId data.userId data.chatId) =
        some payload)
    (haddr : env.isValidAddress data.walletAddress = true)
    (hsig1 : verifyWalletSignature env.signatureOracles data.walletAddress
      (jsTrim data.signature)
      (buildWalletSignatureChallenge data.connectionId data.userId data.chatId
        c.expiresAt) = true)
    (hw : (db.wallets data.userId).find?
      (fun w => decide (w.address = data.walletAddress)) = none)
    (hbal : env.getBalance data.walletAddress ≤ mkRat 1 10000)
    (hrtx : env.recentTransactions data.walletAddress = []) :
    handleWalletCallback env db data =
      ((completeConnection env.now
          (addWallet db data.userId (newWalletDoc env db data.userId data))
          data.connectionId data.walletAddress).1,
        CallbackResult.ok (newWalletDoc env db data.userId data) true none
          (some (env.getBalance data.walletAddress)) failedDrain) := by
  have huid' : ¬ data.userId ≤ 0 := by omega
  have hchid' : ¬ data.chatId ≤ 0 := by omega
  have hpend : getPendingConnection env.now db data.connectionId = some c :=
    getPending_of_lookup env.now db data.connectionId c hl hcst hcexp
  have hnexp : ¬ c.expiresAt < env.now := by omega
  simp only [handleWalletCallback, hnorm, hcid, huid', hchid', hsge, ne_eq,
    ite_false, if_false, hpend, hcuid, hcchid, eq_self_iff_true, not_true,
    or_self, htok, hcst, hnexp, handleWalletCallbackTail, haddr,
    Bool.true_eq_false, challengeExpiry, hsig1, getUserWallets, hw,
    simulateWalletDrain, hbal, if_true, ite_true, Bool.false_eq_true, hrtx,
    List.foldl_nil, newWalletDoc, failedDrain]

/-- C6: record-absent fallback at callback.  When no pending record is found
for the (trimmed) connectionId, `handleWalletCallback` does not reject with a
not-found error: the expected userId/chatId fall back to the payload's
claimed values and token verification still runs against that triple — an
invalid token yields the token failure, while a verifying token proceeds
through the remaining checks to a success result (given a valid address and
signature). -/
theorem C6_record_absent_fallback (env : CallbackEnv) (db : DB)
    (data : CallbackData)
    (h1 : jsTrim data.connectionId ≠ "") (h2 : 0 < data.userId)
    (h3 : 0 < data.chatId) (h4 : jsTrim data.signature ≠ "")
    (habsent : getPendingConnection env.now db (jsTrim data.connectionId) = none) :
    (decodeAndVerifyConnectionToken env.now env.secret data.connToken
        (ExpectedTriple.mk (jsTrim data.connectionId) data.userId data.chatId) =
          none →
      handleWalletCallback env db data =
        (db, CallbackResult.failure "Invalid connection token")) ∧
    (∀ payload : TokenPayload,
      decodeAndVerifyConnectionToken env.now env.secret data.connToken
        (ExpectedTriple.mk (jsTrim data.connectionId) data.userId data.chatId) =
          some payload →
      env.isValidAddress data.walletAddress = true →
      verifyWalletSignature env.signatureOracles data.walletAddress
        (jsTrim data.signature)
        (buildWalletSignatureChallenge (jsTrim data.connectionId) data.userId
          data.chatId payload.exp) = true →
      (handleWalletCallback env db data).2.isSuccess = true) :=
  ⟨fun htok => callback_absent_token_invalid env db data h1 (by omega) (by omega)
      h4 habsent htok,
    fun payload htok haddr hsig => callback_absent_success env db data payload h1
      (by omega) (by omega) h4 habsent htok haddr hsig⟩

set_option maxRecDepth 100000 in
theorem C6_record_absent_fallback_witness :
    (handleWalletCallback c3Env c6AbsentDB c3Data).2.isSuccess = true :=
  (C6_record_absent_fallback c3Env c6AbsentDB c3Data (by decide) (by decide)
      (by decide) (by decide) (by decide)).2
    (TokenPayload.mk "cc" 1 2 100) (by decide) (by decide) (by decide)

set_option maxRecDepth 100000 in
/-- C3 counterexample: in MongoDB mode the second callback with the same
fully valid payload does NOT fail with 'Connection already used' — it
succeeds again.  The completed record is invisible to the MongoDB-mode
`getPendingConnection` (which filters on `status: 'pending'`), so the second
call takes the record-absent fallback path and re-links the wallet. -/
theorem C3_mongo_second_call_succeeds_counterexample :
    (handleWalletCallback c3Env c3MongoDB c3Data).2.isSuccess = true ∧
    (handleWalletCallback c3Env
        (handleWalletCallback c3Env c3MongoDB c3Data).1 c3Data).2.isSuccess =
      true := by
  constructor
  · decide
  · decide

/-- C3 (amended): second-callback behaviour diverges by backend.  For a
fully valid payload (pending unexpired record with matching ids, verifying
token, valid address, verifying signature, wallet not yet linked, and a
drain-free environment), the first `handleWalletCallback` succeeds in both
backends; calling it again with the same payload yields the
'Connection already used' failure in the in-memory backend, but in the
MongoDB backend the completed record is invisible to `getPendingConnection`,
so the second call takes the record-absent fallback path and succeeds
again. -/
theorem C3_second_callback_backend_divergence (env : CallbackEnv) (db : DB)
    (data : CallbackData) (c : Conn) (payload : TokenPayload)
    (hnorm : jsTrim data.connectionId = data.connectionId)
    (hcid : data.connectionId ≠ "") (huid : 0 < data.userId)
    (hchid : 0 < data.chatId) (hsge : jsTrim data.signature ≠ "")
    (hl : connLookup db data.connectionId = some c)
    (hcst : c.status = ConnStatus.pending)
    (hcuid : c.userId = data.userId) (hcchid : c.chatId = data.chatId)
    (hcexp : env.now < c.expiresAt)
    (htok : decodeAndVerifyConnectionToken env.now env.secret data.connToken
      (ExpectedTriple.mk data.connectionId data.userId data.chatId) =
        some payload)
    (haddr : env.isValidAddress data.walletAddress = true)
    (hsig1 : verifyWalletSignature env.signatureOracles data.walletAddress
      (jsTrim data.signature)
      (buildWalletSignatureChallenge data.connectionId data.userId data.chatId
        c.expiresAt) = true)
    (hsig2 : verifyWalletSignature env.signatureOracles data.walletAddress
      (jsTrim data.signature)
      (buildWalletSignatureChallenge data.connectionId data.userId data.chatId
        payload.exp) = true)
    (hw : (db.wallets data.userId).find?
      (fun w => decide (w.address = data.walletAddress)) = none)
    (hbal : env.getBalance data.walletAddress ≤ mkRat 1 10000)
    (hrtx : env.recentTransactions data.walletAddress = []) :
    ((handleWalletCallback env db data).2.isSuccess = true) ∧
    (db.memoryMode = true →
      (handleWalletCallback env (handleWalletCallback env db data).1 data).2 =
        CallbackResult.failure "Connection already used") ∧
    (db.memoryMode = false →
      (handleWalletCallback env (handleWalletCallback env db data).1 data).2.isSuccess =
        true) := by
  have hr1 := callback_firstCall_eq env db data c payload hnorm hcid huid hchid
    hsge hl hcst hcuid hcchid hcexp htok haddr hsig1 hw hbal hrtx
  have hl1 : connLookup (addWallet db data.userId (newWalletDoc env db data.userId
      data)) data.connectionId = some c := hl
  have hcomp : (completeConnection env.now
        (addWallet db data.userId (newWalletDoc env db data.userId data))
        data.connectionId data.walletAddress).1 =
      { addWallet db data.userId (newWalletDoc env db data.userId data) with
          connections := connUpdate data.connectionId
            { c with
                status := ConnStatus.completed
                walletAddress := some data.walletAddress
                completedAt := some env.now }
            (addWallet db data.userId (newWalletDoc env db data.userId
              data)).connections } := by
    simp only [completeConnection, hl1]
  refine ⟨?_, ?_, ?_⟩
  · rw [hr1]
    rfl
  · intro hmem
    rw [hr1]
    have hpend2 : getPendingConnection env.now
        (completeConnection env.now
          (addWallet db data.userId (newWalletDoc env db data.userId data))
          data.connectionId data.walletAddress).1 data.connectionId =
        some { c with
            status := ConnStatus.completed
            walletAddress := some data.walletAddress
            completedAt := some env.now } := by
      rw [hcomp]
      simp only [addWallet, getPendingConnection]
      rw [if_pos hmem]
      simp only [connLookup]
      rw [find?_connUpdate]
      rcases Option.map_eq_some'.mp hl with ⟨q, hq, hq2⟩
      rw [hq]
      rfl
    exact callback_returns_already_used env _ data _ payload hnorm hcid huid
      hchid hsge hpend2 hcuid hcchid rfl htok
  · intro hmongo
    rw [hr1]
    have habs : getPendingConnection env.now
        (completeConnection env.now
          (addWallet db data.userId (newWalletDoc env db data.userId data))
          data.connectionId data.walletAddress).1 data.connectionId = none := by
      rw [hcomp]
      simp only [addWallet, getPendingConnection]
      rw [if_neg (by rw [hmongo]; exact Bool.false_ne_true)]
      rw [find?_pending_connUpdate_completed env.now data.connectionId _
        (fun h => ConnStatus.noConfusion h) db.connections]
      rfl
    exact callback_absent_success env _ data payload (by rw [hnorm]; exact hcid)
      (by omega) (by omega) hsge (by rw [hnorm]; exact habs)
      (by rw [hnorm]; exact htok) haddr (by rw [hnorm]; exact hsig2)

set_option maxRecDepth 100000 in
theorem C3_second_callback_backend_divergence_witness :
    (handleWalletCallback c3Env
        (handleWalletCallback c3Env c3MemoryDB c3Data).1 c3Data).2 =
      CallbackResult.failure "Connection already used" :=
  (C3_second_callback_backend_divergence c3Env c3MemoryDB c3Data c3Conn
      (TokenPayload.mk "cc" 1 2 100) (by decide) (by decide) (by decide)
      (by decide) (by decide) (by decide) (by decide) (by decide) (by decide)
      (by decide) (by decide) (by decide) (by decide) (by decide) (by decide)
      (by decide) (by decide)).2.1 rfl
